import Mathlib

/-!
# Verification of the `dungeonsheets` character composition engine

Shallow embedding of `src/dungeonsheets/character.py`.  Game content
catalogs (`classes.py`, `race.py`, `background.py`, `spells.py`, ...)
are external to the repository snapshot; where `character.py` consumes
them we model exactly the interface it reads (names, levels, flags,
per-class tables), keeping catalog lookups as explicit function
parameters.  Resolved mechanics (features, spells, weapons, ...) compare
by name, so feature/spell sets are modelled as sets of names.
-/

set_option maxRecDepth 4000

namespace DungeonSheets

/-- A resolved game mechanic (spell, weapon, armor, feature, ...).
Only the fields `character.py` reads are modelled: the display `name`
and the `source` marker (`"Unknown"` on synthesized placeholders). -/
structure Mechanic where
  name : String
  source : String := ""
  deriving DecidableEq, Repr

/-! ## Python string primitives used by `character.py`

`str.title()`, `str.strip()`, `str.replace` as used in
`add_class` and `_resolve_mechanic`.  ASCII-faithful. -/

/-- One step of Python `str.title()`: a letter is uppercased when the
previous character is not a letter, lowercased otherwise. -/
def pyTitleGo : List Char → Bool → List Char
  | [], _ => []
  | c :: cs, prevCased =>
    (if c.isAlpha then (if prevCased then c.toLower else c.toUpper) else c)
      :: pyTitleGo cs c.isAlpha

/-- Python `s.title()`. -/
def pyTitle (s : String) : String := ⟨pyTitleGo s.data false⟩

/-- Python `s.replace("_", " ")`. -/
def pyUnderscoreToSpace (s : String) : String :=
  ⟨s.data.map (fun c => if c = '_' then ' ' else c)⟩

/-- Python `s.strip()` (whitespace from both ends). -/
def pyStrip (s : String) : String :=
  ⟨((s.data.dropWhile Char.isWhitespace).reverse.dropWhile Char.isWhitespace).reverse⟩

/-- Python `s.replace(" ", "")`. -/
def pyRemoveSpaces (s : String) : String := ⟨s.data.filter (fun c => c ≠ ' ')⟩

/-! ## `_resolve_mechanic` (character.py lines 80-146) -/

/-- The raw entry handed to `_resolve_mechanic`: either something that is
already a subclass of the target superclass, or a name string. -/
inductive MechanicInput where
  | resolved (m : Mechanic)
  | name (s : String)
  deriving DecidableEq, Repr

/-- `_resolve_mechanic(mechanic, module, SuperClass, warning_message)`.
`lookup` stands for `findattr(module, mechanic)` over the external
content catalog.  Returns the resolved mechanic together with a flag
recording whether a warning was emitted (every category call site in
`character.py` passes a `warning_message`, so an unknown name always
warns).  An unknown name synthesizes a placeholder whose display name is
`mechanic.replace("_", " ").title()` and whose `source` is `"Unknown"`. -/
def resolve_mechanic (lookup : String → Option Mechanic) :
    MechanicInput → Mechanic × Bool
  | .resolved m => (m, false)
  | .name s =>
    match lookup s with
    | some m => (m, false)
    | none => ({ name := pyTitle (pyUnderscoreToSpace s), source := "Unknown" }, true)

/-! ## Class entries -/

/-- The thirteen character classes of the external class catalog
(`classes.py`); `type(c)` tests in `character.py` are modelled as tests
on this tag. -/
inductive CharClassKind where
  | artificer | barbarian | bard | cleric | druid | fighter | monk
  | paladin | ranger | rogue | sorceror | warlock | wizard
  deriving DecidableEq, Repr

/-- One class+level+subclass entry of `class_list`, carrying exactly the
per-class data `character.py` reads off it.  `ownSpellSlots` is the
class's own spell-slot table (`c.spell_slots(spell_level)` from the
external catalog), `features` the names of the features it grants. -/
structure ClassEntry where
  kind : CharClassKind
  level : Nat
  subclass : Option String := none
  hit_dice_faces : Nat := 8
  is_spellcaster : Bool := false
  ownSpellSlots : Nat → Nat := fun _ => 0
  features : List String := []
  weapon_proficiencies : List String := []
  multiclass_weapon_proficiencies : List String := []

/-! ## Race and background -/

/-- A race object as read by `character.py`: features (plus the optional
level-gated `features_by_level` table) and weapon proficiencies. -/
structure RaceObj where
  name : String := ""
  features : List String := []
  features_by_level : Option (Nat → List String) := none
  weapon_proficiencies : List String := []

/-- `race.Race(owner=self)` — the generic "no race" placeholder. -/
def genericRace : RaceObj := {}

/-- A background object as read by `character.py`. -/
structure BackgroundObj where
  name : String := ""
  features : List String := []
  weapon_proficiencies : List String := []

/-- `background.Background(owner=self)` — the generic placeholder. -/
def genericBackground : BackgroundObj := {}

/-! ## Generic attribute values

Values carried by the free-form attribute dictionary handed to
`Character.__init__` / `set_attrs`.  `typeLike` stands for a Python
`type` or module object (skipped by the generic-assignment branch). -/
inductive AttrVal where
  | str (s : String)
  | int (n : Int)
  | bool (b : Bool)
  | strList (l : List String)
  | typeLike
  deriving DecidableEq, Repr

/-- Python truthiness of an `AttrVal`. -/
def AttrVal.truthy : AttrVal → Bool
  | .str s => s ≠ ""
  | .int n => n ≠ 0
  | .bool b => b
  | .strList l => l ≠ []
  | .typeLike => true

/-- Is this value a Python `type`/module (excluded from generic
assignment by `type(val) not in (type, ModuleType)`)? -/
def AttrVal.isTypeLike : AttrVal → Bool
  | .typeLike => true
  | _ => false

/-! ## The character aggregate -/

/-- The `Character` state.  Structured fields mirror the class
attributes of `character.py`; `attrs` is the generic instance-attribute
store written by the plain `setattr` branch of `set_attrs` (read back
via `getattr`). -/
structure Character where
  class_list : List ClassEntry := []
  race : Option RaceObj := none
  background : Option BackgroundObj := none
  constitution_modifier : Int := 0
  hp_max : Option Int := none
  custom_features : List String := []
  armor : Option Mechanic := none
  shield : Option Mechanic := none
  weapons : List Mechanic := []
  magic_items : List Mechanic := []
  other_weapon_proficiencies : List String := []
  saving_throw_proficiencies : List String := []
  spells_known : List String := []
  spells_prepared : List String := []
  infusions : List String := []
  druid_circle : Option AttrVal := none
  attrs : List (String × AttrVal) := []

/-- Total character level: `sum(c.level for c in self.class_list)`. -/
def Character.level (ch : Character) : Nat :=
  (ch.class_list.map ClassEntry.level).sum

/-- Generic instance-attribute read-back (`getattr(self, k)` restricted
to the free-form store). -/
def Character.getattr (ch : Character) (k : String) : Option AttrVal :=
  (ch.attrs.find? (fun kv => kv.1 = k)).map Prod.snd

/-! ## Spell slots (character.py lines 55-77 and 566-617) -/

/-- `multiclass_spellslots_by_level` (character.py lines 55-77): the
fixed PHB multiclass table, `char_lvl ↦ (cantrips, 1st, 2nd, ...)`.
`none` models a `KeyError` for a level outside 1-20. -/
def multiclass_spellslots_by_level : Nat → Option (List Nat)
  | 1 => some [0, 2, 0, 0, 0, 0, 0, 0, 0, 0]
  | 2 => some [0, 3, 0, 0, 0, 0, 0, 0, 0, 0]
  | 3 => some [0, 4, 2, 0, 0, 0, 0, 0, 0, 0]
  | 4 => some [0, 4, 3, 0, 0, 0, 0, 0, 0, 0]
  | 5 => some [0, 4, 3, 2, 0, 0, 0, 0, 0, 0]
  | 6 => some [0, 4, 3, 3, 0, 0, 0, 0, 0, 0]
  | 7 => some [0, 4, 3, 3, 1, 0, 0, 0, 0, 0]
  | 8 => some [0, 4, 3, 3, 2, 0, 0, 0, 0, 0]
  | 9 => some [0, 4, 3, 3, 3, 1, 0, 0, 0, 0]
  | 10 => some [0, 4, 3, 3, 3, 2, 0, 0, 0, 0]
  | 11 => some [0, 4, 3, 3, 3, 2, 1, 0, 0, 0]
  | 12 => some [0, 4, 3, 3, 3, 2, 1, 0, 0, 0]
  | 13 => some [0, 4, 3, 3, 3, 2, 1, 1, 0, 0]
  | 14 => some [0, 4, 3, 3, 3, 2, 1, 1, 0, 0]
  | 15 => some [0, 4, 3, 3, 3, 2, 1, 1, 1, 0]
  | 16 => some [0, 4, 3, 3, 3, 2, 1, 1, 1, 0]
  | 17 => some [0, 4, 3, 3, 3, 2, 1, 1, 1, 1]
  | 18 => some [0, 4, 3, 3, 3, 3, 1, 1, 1, 1]
  | 19 => some [0, 4, 3, 3, 3, 3, 2, 1, 1, 1]
  | 20 => some [0, 4, 3, 3, 3, 3, 2, 2, 1, 1]
  | _ => none

/-- `spellcasting_classes` (line 567). -/
def Character.spellcastingClasses (ch : Character) : List ClassEntry :=
  ch.class_list.filter (fun c => c.is_spellcaster)

/-- `spellcasting_classes_excluding_warlock` (line 571). -/
def Character.spellcastingClassesExcludingWarlock (ch : Character) : List ClassEntry :=
  ch.spellcastingClasses.filter (fun c => ¬ c.kind = CharClassKind.warlock)

/-- The `warlock_slots` accumulation loop at the top of `spell_slots`
(lines 579-582): each Warlock entry overwrites the accumulator with its
own slot count. -/
def Character.warlockSlots (ch : Character) (spell_level : Nat) : Nat :=
  ch.spellcastingClasses.foldl
    (fun acc c => if c.kind = CharClassKind.warlock then c.ownSpellSlots spell_level else acc) 0

/-- Per-class contribution to the multiclass effective caster level
(lines 596-610): full level for Bard/Cleric/Druid/Sorceror/Wizard,
`level // 2` for Paladin/Ranger, `level // 3` for Fighter/Rogue,
`math.ceil(level / 2)` for Artificer, nothing otherwise. -/
def casterLevelContrib (c : ClassEntry) : Nat :=
  match c.kind with
  | .bard | .cleric | .druid | .sorceror | .wizard => c.level
  | .paladin | .ranger => c.level / 2
  | .fighter | .rogue => c.level / 3
  | .artificer => (c.level + 1) / 2
  | _ => 0

/-- The `eff_level` accumulation loop (lines 595-610). -/
def Character.effectiveCasterLevel (ch : Character) : Nat :=
  ch.spellcastingClassesExcludingWarlock.foldl (fun acc c => acc + casterLevelContrib c) 0

/-- `Character.spell_slots(spell_level)` (lines 578-617).  `none` models
a raised `KeyError`/`IndexError` (effective level outside the table or
spell level outside the 10-wide row). -/
def Character.spell_slots (ch : Character) (spell_level : Nat) : Option Nat :=
  let warlock_slots := ch.warlockSlots spell_level
  match ch.spellcastingClassesExcludingWarlock with
  | [] => some warlock_slots
  | [c] => some (c.ownSpellSlots spell_level + warlock_slots)
  | _ :: _ :: _ =>
    if spell_level = 0 then
      some ((ch.spellcastingClasses.map (fun c => c.ownSpellSlots 0)).sum)
    else
      let eff_level := ch.effectiveCasterLevel
      if eff_level = 0 then
        some warlock_slots
      else
        (multiclass_spellslots_by_level eff_level).bind
          (fun row => (row.get? spell_level).map (fun v => v + warlock_slots))

/-! ## Feature aggregation (character.py lines 505-543) -/

/-- The six canonical fighting styles (lines 509-516). -/
def set_of_fighting_styles : List String :=
  ["Fighting Style (Archery)",
   "Fighting Style (Defense)",
   "Fighting Style (Dueling)",
   "Fighting Style (Great Weapon Fighting)",
   "Fighting Style (Protection)",
   "Fighting Style (Two-Weapon Fighting)"]

/-- The generic placeholder feature name (line 529). -/
def fightingStyleSelectOne : String := "Fighting Style (Select One)"

/-- Union over the level-gated race feature table:
`for lvl in range(1, self.level + 1): fts |= set(features_by_level[lvl])`
(lines 537-539), together with the plain race features. -/
def raceFeatureNames (r : RaceObj) (charLevel : Nat) : Finset String :=
  r.features.toFinset ∪
    (match r.features_by_level with
     | none => ∅
     | some tbl =>
       ((List.range charLevel).map (fun i => i + 1)).foldl
         (fun s lvl => s ∪ (tbl lvl).toFinset) ∅)

/-- One step of the class-feature aggregation loop (lines 524-533):
union in the class entry's features, then — only when
`fighting_style_defined` — remove the `"Fighting Style (Select One)"`
placeholder (the inner `for`/`break` removes exactly one set element,
i.e. the name, since features compare by name). -/
def featuresClassStep (fighting_style_defined : Bool)
    (fts : Finset String) (c : ClassEntry) : Finset String :=
  let fts' := fts ∪ c.features.toFinset
  if fighting_style_defined then fts'.erase fightingStyleSelectOne else fts'

/-- The aggregated feature-name set of the `features` property
(lines 505-543), before the final sort.  `fighting_style_defined` is
decided once, from `set(self.custom_features)` only, before any class
features are aggregated (lines 507-520). -/
def Character.featuresSet (ch : Character) : Finset String :=
  let fts0 := ch.custom_features.toFinset
  let fighting_style_defined := ch.custom_features.any (fun f => f ∈ set_of_fighting_styles)
  if ch.class_list.isEmpty then fts0
  else
    let fts1 := ch.class_list.foldl (featuresClassStep fighting_style_defined) fts0
    let fts2 := match ch.race with
      | some r => fts1 ∪ raceFeatureNames r ch.level
      | none => fts1
    match ch.background with
    | some bg => fts2 ∪ bg.features.toFinset
    | none => fts2

/-- The `features` property result: the aggregated names sorted by name
(`sorted(tuple(fts), key=lambda x: x.name)`, line 543).  The classless
early return hands back the bare set; its elements are the same. -/
def Character.features (ch : Character) : List String :=
  ch.featuresSet.sort (· ≤ ·)

/-! ## Hit points (character.py lines 464-481) -/

/-- `int(hp_per_lvl * levels)` where
`hp_per_lvl = hit_dice_faces / 2 + 1 + const_mod` (lines 476-481).
The float arithmetic is exact (a half-integer times a small integer),
and `(faces/2 + 1 + cm) * lvls = ((faces + 2 + 2*cm) * lvls) / 2`
exactly, so Python's `int()` (truncation toward zero) is `Int.tdiv` on
the doubled numerator. -/
def hpLevelContrib (faces : Nat) (cm : Int) (lvls : Nat) : Int :=
  Int.tdiv (((faces : Int) + 2 + 2 * cm) * lvls) 2

/-- The computed-from-classes branch of `__set_max_hp` (lines 471-481):
level-1 maximum roll for the primary class plus the per-level average
for every entry, the primary entry counting one fewer level.  `none`
models the `AttributeError` on an empty class list and the
`AssertionError` when the primary level is 0 (`levels -= 1` would go
negative). -/
def Character.computedHpMax (ch : Character) : Option Int :=
  match ch.class_list with
  | [] => none
  | p :: rest =>
    if p.level = 0 then none
    else
      let cm := ch.constitution_modifier
      some (((p.hit_dice_faces : Int) + cm)
        + hpLevelContrib p.hit_dice_faces cm (p.level - 1)
        + (rest.map (fun c => hpLevelContrib c.hit_dice_faces cm c.level)).sum)

/-- `Character.__set_max_hp(hp_max)` (lines 464-481).  `if hp_max:` is a
truthiness test, so `None`, `0`, `False`, `""` all fall through to the
computed formula; a truthy value must be an `int` (Python `bool` is an
`int` subclass) or the `assert isinstance(hp_max, int)` fails. -/
def Character.set_max_hp (ch : Character) (v : Option AttrVal) : Except String Character :=
  let computed : Except String Character :=
    match ch.computedHpMax with
    | some n => .ok { ch with hp_max := some n }
    | none => .error "AttributeError"
  match v with
  | none => computed
  | some val =>
    if val.truthy then
      match val with
      | .int n => .ok { ch with hp_max := some n }
      | .bool b => .ok { ch with hp_max := some (if b then 1 else 0) }
      | _ => .error "AssertionError: hp_max must be an int"
    else computed

/-! ## Armor and shields (character.py lines 823-863) -/

/-- Input to `wear_armor` / `wield_shield`: Python `None`, a name
string, an `Armor` instance, or an `Armor` subclass. -/
inductive ArmorInput where
  | pynone
  | name (s : String)
  | instance_ (m : Mechanic)
  | cls (m : Mechanic)
  deriving DecidableEq, Repr

/-- `Character.wear_armor(new_armor)` (lines 823-845): a no-op for
`None`/`""`/`"None"`; an `Armor` instance is used as is; anything else
goes through `_resolve_mechanic` (so an unknown name yields a
placeholder with a warning) and is instantiated. -/
def Character.wear_armor (lookup : String → Option Mechanic) (ch : Character) :
    ArmorInput → Character
  | .pynone => ch
  | .name s =>
    if s = "" ∨ s = "None" then ch
    else { ch with armor := some (resolve_mechanic lookup (.name s)).1 }
  | .instance_ m => { ch with armor := some m }
  | .cls m => { ch with armor := some (resolve_mechanic lookup (.resolved m)).1 }

/-- `Character.wield_shield(shield)` (lines 847-863): a no-op for
`None`/`""`/`"None"`.  Unlike `wear_armor` it does *not* use
`_resolve_mechanic`: it tries `findattr(armor, shield)`, and on
`AttributeError` binds `NewShield` to the argument itself ("Not a
string, so just treat it as Armor") and calls it.  For an unknown name
*string* this calls the string itself — a `TypeError`, modelled as
`.error` — rather than synthesizing a placeholder.  A class argument
makes `findattr` fail (no `.replace` on a type) and is instantiated. -/
def Character.wield_shield (lookup : String → Option Mechanic) (ch : Character) :
    ArmorInput → Except String Character
  | .pynone => .ok ch
  | .name s =>
    if s = "" ∨ s = "None" then .ok ch
    else
      match lookup s with
      | some m => .ok { ch with shield := some m }
      | none => .error "TypeError: str object is not callable"
  | .instance_ m =>
    -- findattr raises on the non-string; calling the *instance* would
    -- itself raise TypeError in Python unless the instance is callable.
    .error ("TypeError: " ++ m.name ++ " object is not callable")
  | .cls m => .ok { ch with shield := some m }

/-! ## Race and background setters (character.py lines 370-410) -/

/-- Input to the `race` property setter: an instance, a subclass, a name
string, Python `None`, or any other value (no branch matches). -/
inductive RaceInput where
  | instance_ (r : RaceObj)
  | cls (r : RaceObj)
  | name (s : String)
  | pynone
  | other

/-- The `race` setter (lines 374-389): instances/classes are adopted,
a name is looked up (an unknown name warns and falls back to the
generic `Race()`), and — crucially — `None` has its own branch mapping
to the generic `Race()`.  A value matching no branch leaves `_race`
unchanged.  Returns the new `_race` plus a warning flag. -/
def race_setter (lookup : String → Option RaceObj) (prev : Option RaceObj) :
    RaceInput → Option RaceObj × Bool
  | .instance_ r => (some r, false)
  | .cls r => (some r, false)
  | .name s =>
    match lookup s with
    | some r => (some r, false)
    | none => (some genericRace, true)
  | .pynone => (some genericRace, false)
  | .other => (prev, false)

/-- Input to the `background` property setter. -/
inductive BackgroundInput where
  | instance_ (b : BackgroundObj)
  | cls (b : BackgroundObj)
  | name (s : String)
  | pynone
  | other

/-- The `background` setter (lines 395-410): same shape as the race
setter *except that there is no `None` branch* — assigning `None`
leaves `_background` untouched (it stays `None` on a fresh
character). -/
def background_setter (lookup : String → Option BackgroundObj) (prev : Option BackgroundObj) :
    BackgroundInput → Option BackgroundObj × Bool
  | .instance_ b => (some b, false)
  | .cls b => (some b, false)
  | .name s =>
    match lookup s with
    | some b => (some b, false)
    | none => (some genericBackground, true)
  | .pynone => (prev, false)
  | .other => (prev, false)

/-! ## The class catalog and `add_class` (character.py lines 306-368)

`classes.py` is external to the snapshot.  Modelled from the spec: the
class catalog holds the thirteen standard character classes, looked up
by exact attribute name (`getattr(classes, ...)` after normalization);
per-class fixed data (hit-dice faces) follows the tabletop table the
spec calls "that class's table value".  The per-class spell-slot tables
and spellcaster flags are part of the external catalog; the spell-slot
theorems below treat them as opaque fields of the class entry. -/

/-- `getattr(classes, name)` over the external class catalog. -/
def classesCatalog : String → Option CharClassKind
  | "Artificer" => some .artificer
  | "Barbarian" => some .barbarian
  | "Bard" => some .bard
  | "Cleric" => some .cleric
  | "Druid" => some .druid
  | "Fighter" => some .fighter
  | "Monk" => some .monk
  | "Paladin" => some .paladin
  | "Ranger" => some .ranger
  | "Rogue" => some .rogue
  | "Sorceror" => some .sorceror
  | "Warlock" => some .warlock
  | "Wizard" => some .wizard
  | _ => none

/-- Modelled from the spec: fixed per-class hit-dice face counts of the
external class catalog. -/
def classHitDiceFaces : CharClassKind → Nat
  | .barbarian => 12
  | .fighter | .paladin | .ranger => 10
  | .sorceror | .wizard => 6
  | _ => 8

/-- Modelled from the spec: the class catalog's spellcaster capability
flag (base classes; subclass-granted casting is part of the external
catalog and irrelevant to the claims below). -/
def classIsSpellcaster : CharClassKind → Bool
  | .artificer | .bard | .cleric | .druid | .paladin
  | .ranger | .sorceror | .warlock | .wizard => true
  | _ => false

/-- `cls(level, owner=self, subclass=subclass, ...)` — construct a class
entry from catalog data.  The entry's own spell-slot table lives in the
external catalog (not needed by any claim), kept at the zero default. -/
def mkClassEntry (k : CharClassKind) (level : Nat) (subclass : Option String) : ClassEntry :=
  { kind := k
    level := level
    subclass := subclass
    hit_dice_faces := classHitDiceFaces k
    is_spellcaster := classIsSpellcaster k }

/-- Input to `add_class`: a name string or a class from the catalog. -/
inductive ClassInput where
  | str (s : String)
  | cls (k : CharClassKind)

/-- The name normalization in `add_class` (line 315):
`cls.strip().title().replace(" ", "")`. -/
def normalizeClassName (s : String) : String :=
  pyRemoveSpaces (pyTitle (pyStrip s))

/-- `Character.add_class(cls, level, subclass, ...)` (lines 306-326):
a string is normalized and looked up in `classes.py`; an unknown name
raises `AttributeError` ("class was not recognized from classes.py"),
no placeholder is synthesized.  On success the new entry is appended to
`class_list`. -/
def Character.add_class (ch : Character) (cls : ClassInput) (level : Nat)
    (subclass : Option String) : Except String Character :=
  match cls with
  | .str s =>
    let norm := normalizeClassName s
    match classesCatalog norm with
    | none => .error ("AttributeError: class was not recognized from classes.py: " ++ norm)
    | some k =>
      .ok { ch with class_list := ch.class_list ++ [mkClassEntry k level subclass] }
  | .cls k =>
    .ok { ch with class_list := ch.class_list ++ [mkClassEntry k level subclass] }

/-- `Character.add_classes(classes_list, levels, subclasses, ...)`
(lines 328-368): broadcast empty `levels`/`subclasses`, assert equal
lengths (an `AssertionError` is a structural failure), then `add_class`
each triple in order. -/
def Character.add_classes (ch : Character) (classes_list : List ClassInput)
    (levels : List Nat) (subclasses : List (Option String)) : Except String Character :=
  let levels := if levels = [] then List.replicate classes_list.length 1 else levels
  let subclasses :=
    if subclasses.isEmpty then List.replicate classes_list.length none else subclasses
  if classes_list.length ≠ levels.length then
    .error "AssertionError: the length of classes does not match length of levels"
  else if classes_list.length ≠ subclasses.length then
    .error "AssertionError: the length of classes does not match length of subclasses"
  else
    (classes_list.zip (levels.zip subclasses)).foldlM
      (fun acc t => acc.add_class t.1 t.2.1 t.2.2) ch

/-! ## Proficiency aggregation and weapons (character.py lines 483-503, 865-886) -/

/-- The `weapon_proficiencies` property (lines 483-495), as a set of
weapon names: extra proficiencies, the primary class's proficiencies,
every later entry's multiclass subset, race and background
proficiencies. -/
def Character.weapon_proficiencies_prop (ch : Character) : List String :=
  let fromClasses :=
    match ch.class_list with
    | [] => []
    | p :: rest =>
      p.weapon_proficiencies ++ (rest.map ClassEntry.multiclass_weapon_proficiencies).flatten
  (ch.other_weapon_proficiencies ++ fromClasses
    ++ (match ch.race with | some r => r.weapon_proficiencies | none => [])
    ++ (match ch.background with | some b => b.weapon_proficiencies | none => [])).dedup

/-- The external content catalogs consumed by `set_attrs` and the
constructor (each is a `findattr`-style name lookup). -/
structure Catalogs where
  weapons : String → Option Mechanic := fun _ => none
  magic_items : String → Option Mechanic := fun _ => none
  features : String → Option Mechanic := fun _ => none
  spells : String → Option Mechanic := fun _ => none
  infusions : String → Option Mechanic := fun _ => none
  armor : String → Option Mechanic := fun _ => none
  races : String → Option RaceObj := fun _ => none
  backgrounds : String → Option BackgroundObj := fun _ => none

/-- `Character.wield_weapon(weapon)` (lines 865-886): resolve (an
instance passes through as its own class) and append to `weapons`.
Returns the updated character and the warning flag. -/
def Character.wield_weapon (cats : Catalogs) (ch : Character) (w : MechanicInput) :
    Character × Bool :=
  let p := resolve_mechanic cats.weapons w
  ({ ch with weapons := ch.weapons ++ [p.1] }, p.2)

/-! ## Bulk attribute assignment: `set_attrs` (character.py lines 641-745) -/

/-- Resolve a list of names against a catalog, collecting the resolved
mechanics and one warning message per unknown name. -/
def resolveAll (lookup : String → Option Mechanic) (msg : String) (names : List String) :
    List Mechanic × List String :=
  names.foldl
    (fun acc s =>
      let p := resolve_mechanic lookup (.name s)
      (acc.1 ++ [p.1], acc.2 ++ if p.2 then [msg ++ s] else []))
    ([], [])

/-- The value of a `weapons`-style entry as a list of names: a bare
string is wrapped in a singleton list (lines 650-651). -/
def AttrVal.asNameListWrapped : AttrVal → Option (List String)
  | .str s => some [s]
  | .strList l => some l
  | _ => none

/-- The value of an entry the code iterates without wrapping
(`spells`, `weapon_proficiencies`, ...): iterating a bare Python string
yields its characters. -/
def AttrVal.asNameList : AttrVal → Option (List String)
  | .str s => some (s.data.map (fun c => String.mk [c]))
  | .strList l => some l
  | _ => none

/-- Class attributes, properties and methods of `Character` (and hence
of any instance): `hasattr(self, attr)` is true for these names.
Attribute names contributed by the external `Agent` base class are not
modelled. -/
def knownCharacterAttrs : List String :=
  ["name", "player_name", "alignment", "dungeonsheets_version", "class_list",
   "xp", "hp_max", "strength", "dexterity", "constitution", "intelligence",
   "wisdom", "charisma", "armor_class", "initiative", "speed", "inspiration",
   "other_weapon_proficiencies", "skill_proficiencies", "skill_expertise",
   "languages", "acrobatics", "animal_handling", "arcana", "athletics",
   "deception", "history", "insight", "intimidation", "investigation",
   "medicine", "nature", "perception", "performance", "persuasion",
   "religion", "sleight_of_hand", "stealth", "survival",
   "attacks_and_spellcasting", "personality_traits", "ideals", "bonds",
   "flaws", "features_and_traits", "cp", "sp", "ep", "gp", "pp", "equipment",
   "weapons", "magic_items", "armor", "shield", "spellcasting_ability",
   "infusions", "custom_features", "feature_choices",
   "race", "background", "class_name", "classes_and_levels", "class_names",
   "levels", "subclasses", "level", "num_classes", "has_class",
   "primary_class", "weapon_proficiencies", "other_weapon_proficiencies_text",
   "features", "custom_features_text", "has_feature",
   "saving_throw_proficiencies", "spellcasting_classes",
   "spellcasting_classes_excluding_warlock", "is_spellcaster", "spell_slots",
   "spells", "spells_prepared", "set_attrs", "spell_save_dc",
   "spell_attack_bonus", "is_proficient", "proficiencies_text",
   "features_text", "magic_items_text", "wear_armor", "wield_shield",
   "wield_weapon", "hit_dice", "hit_dice_faces", "proficiency_bonus",
   "can_assume_shape", "all_wild_shapes", "wild_shapes", "infusions_text",
   "load", "save", "to_pdf", "clear", "add_class", "add_classes"]

/-- Properties of `Character` declared without a setter: plain
`setattr` on them raises `AttributeError`. -/
def readonlyPropertyKeys : List String :=
  ["class_name", "classes_and_levels", "class_names", "levels", "subclasses",
   "num_classes", "has_class", "primary_class",
   "other_weapon_proficiencies_text", "custom_features_text",
   "spellcasting_classes", "spellcasting_classes_excluding_warlock",
   "is_spellcaster", "proficiencies_text", "features_text",
   "magic_items_text", "hit_dice", "proficiency_bonus", "all_wild_shapes",
   "infusions_text"]

/-- The keys given dedicated branches by `set_attrs` (including the
property setters dispatched through plain `setattr` and the read-only
properties, which raise). -/
def stepHandledKeys : List String :=
  ["dungeonsheets_version", "weapons", "magic_items", "weapon_proficiencies",
   "armor", "shield", "circle", "features", "spells", "spells_prepared",
   "infusions", "race", "background", "level", "hit_dice_faces",
   "saving_throw_proficiencies", "wild_shapes"] ++ readonlyPropertyKeys

/-- Attribute names that are "specially handled" by construction: the
`set_attrs` dedicated branches and property setters, the constructor's
popped keys, `hp_max` (overwritten by `__set_max_hp`), and the
descriptor-mediated ability/skill/compound stats whose `stats.py`
machinery is external. -/
def roundtripExcludedKeys : List String :=
  stepHandledKeys ++
    ["class", "subclass", "hp_max",
     "strength", "dexterity", "constitution", "intelligence", "wisdom",
     "charisma", "armor_class", "initiative", "speed",
     "acrobatics", "animal_handling", "arcana", "athletics", "deception",
     "history", "insight", "intimidation", "investigation", "medicine",
     "nature", "perception", "performance", "persuasion", "religion",
     "sleight_of_hand", "stealth", "survival"]

/-- Python `attr.startswith("_")`. -/
def startsWithUnderscore (s : String) : Bool :=
  match s.data with
  | c :: _ => c = '_'
  | [] => false

/-- `hasattr(self, attr)`: a known class attribute/property/method, or
an instance attribute set earlier. -/
def Character.hasattr (ch : Character) (k : String) : Bool :=
  k ∈ knownCharacterAttrs ∨ (ch.getattr k).isSome

/-- Overwrite-or-append on the generic instance-attribute store
(`setattr`). -/
def assocSet (l : List (String × AttrVal)) (k : String) (v : AttrVal) :
    List (String × AttrVal) :=
  l.filter (fun kv => ¬ kv.1 = k) ++ [(k, v)]

/-- The `weapons` branch loop of `set_attrs` (lines 652-654): wield
each named weapon in order, collecting warnings. -/
def wieldAllNames (cats : Catalogs) (acc : Character × List String)
    (names : List String) : Character × List String :=
  names.foldl
    (fun a s =>
      let p := Character.wield_weapon cats a.1 (.name s)
      (p.1, a.2 ++ if p.2 then ["Unknown weapon: " ++ s] else []))
    acc

/-- Translate an `AttrVal` into a `race`/`background` setter input. -/
def RaceInput.ofVal : AttrVal → RaceInput
  | .str s => .name s
  | _ => .other

/-- Translate an `AttrVal` into a background setter input. -/
def BackgroundInput.ofVal : AttrVal → BackgroundInput
  | .str s => .name s
  | _ => .other

/-- One iteration of the `set_attrs` loop (lines 646-745), threading the
character and the accumulated warning messages.  The final `else`
branch is the plain-`setattr` path; assignments to property names
dispatch to the corresponding property setters (`level`,
`hit_dice_faces`, `race`, `background`, `saving_throw_proficiencies`,
`wild_shapes`), and properties without a setter raise
`AttributeError`.  Values of shapes the source would crash on
(e.g. iterating an integer) are modelled as `TypeError`. -/
def set_attrs_step (cats : Catalogs) (acc : Character × List String)
    (kv : String × AttrVal) : Except String (Character × List String) :=
  let ch := acc.1
  let ws := acc.2
  let k := kv.1
  let v := kv.2
  if k = "dungeonsheets_version" then .ok (ch, ws)
  else if k = "weapons" then
    match v.asNameListWrapped with
    | none => .error "TypeError"
    | some names => .ok (wieldAllNames cats (ch, ws) names)
  else if k = "magic_items" then
    match v.asNameListWrapped with
    | none => .error "TypeError"
    | some names =>
      let p := resolveAll cats.magic_items "Magic Item not defined: " names
      .ok ({ ch with magic_items := ch.magic_items ++ p.1 }, ws ++ p.2)
  else if k = "weapon_proficiencies" then
    match v.asNameList with
    | none => .error "TypeError"
    | some names =>
      let ch0 := { ch with other_weapon_proficiencies := [] }
      let p := resolveAll cats.weapons "Magic Item not defined: " names
      let wps := (p.1.map Mechanic.name).dedup.filter
        (fun n => ¬ n ∈ ch0.weapon_proficiencies_prop)
      .ok ({ ch0 with other_weapon_proficiencies := wps }, ws ++ p.2)
  else if k = "armor" then
    match v with
    | .str s => .ok (Character.wear_armor cats.armor ch (.name s), ws)
    | _ => .error "TypeError"
  else if k = "shield" then
    match v with
    | .str s => (Character.wield_shield cats.armor ch (.name s)).map (fun ch' => (ch', ws))
    | _ => .error "TypeError"
  else if k = "circle" then
    if ch.class_list.any (fun c => c.kind = CharClassKind.druid) then
      .ok ({ ch with druid_circle := some v }, ws)
    else .ok (ch, ws)
  else if k = "features" then
    match v.asNameListWrapped with
    | none => .error "TypeError"
    | some names =>
      let p := resolveAll cats.features "Feature not defined: " names
      .ok ({ ch with custom_features := ch.custom_features ++ p.1.map Mechanic.name },
        ws ++ p.2)
  else if k = "spells" then
    match v.asNameList with
    | none => .error "TypeError"
    | some names =>
      let p := resolveAll cats.spells "Spell not defined: " names
      .ok ({ ch with spells_known := (p.1.map Mechanic.name).mergeSort (fun a b => a ≤ b) },
        ws ++ p.2)
  else if k = "spells_prepared" then
    match v.asNameList with
    | none => .error "TypeError"
    | some names =>
      let p := resolveAll cats.spells "Spell not defined: " names
      .ok ({ ch with spells_prepared := (p.1.map Mechanic.name).mergeSort (fun a b => a ≤ b) },
        ws ++ p.2)
  else if k = "infusions" then
    if ch.class_list.any (fun c => c.kind = CharClassKind.artificer) then
      match v.asNameList with
      | none => .error "TypeError"
      | some names =>
        let p := resolveAll cats.infusions "Infusion not defined: " names
        .ok ({ ch with infusions := (p.1.map Mechanic.name).mergeSort (fun a b => a ≤ b) },
          ws ++ p.2)
    else .ok (ch, ws)
  else if v.isTypeLike then
    -- `type(val) in (type, ModuleType)`: no assignment, no warning
    .ok (ch, ws)
  else if k ∈ readonlyPropertyKeys then
    .error ("AttributeError: can not set attribute " ++ k)
  else if k = "race" then
    let p := race_setter cats.races ch.race (RaceInput.ofVal v)
    .ok ({ ch with race := p.1 }, ws ++ if p.2 then ["Race not defined"] else [])
  else if k = "background" then
    let p := background_setter cats.backgrounds ch.background (BackgroundInput.ofVal v)
    .ok ({ ch with background := p.1 }, ws ++ if p.2 then ["Background not defined"] else [])
  else if k = "level" then
    -- the `level` property setter (lines 439-446)
    match ch.class_list, v with
    | [], _ => .error "AttributeError"
    | p :: rest, .int n =>
      .ok ({ ch with class_list := { p with level := n.toNat } :: rest },
        ws ++ if rest.isEmpty then [] else ["Unable to tell which level to set"])
    | _ :: _, _ => .error "TypeError (non-integer levels not modelled)"
  else if k = "hit_dice_faces" then
    match ch.class_list, v with
    | [], _ => .error "AttributeError"
    | p :: rest, .int n =>
      .ok ({ ch with class_list := { p with hit_dice_faces := n.toNat } :: rest }, ws)
    | _ :: _, _ => .error "TypeError (non-integer faces not modelled)"
  else if k = "saving_throw_proficiencies" then
    match v.asNameList with
    | some names => .ok ({ ch with saving_throw_proficiencies := names }, ws)
    | none => .error "TypeError"
  else if k = "wild_shapes" then
    -- delegates to the external Druid class entry; a no-op here
    .ok (ch, ws)
  else
    let is_unknown := ¬ ch.hasattr k ∧ ¬ startsWithUnderscore k
    .ok ({ ch with attrs := assocSet ch.attrs k v },
      ws ++ if is_unknown then ["Setting unknown character attribute " ++ k] else [])

/-- `Character.set_attrs(**attrs)` (lines 641-745): fold the per-entry
step over the attribute dictionary (Python dicts preserve insertion
order and have unique keys). -/
def Character.set_attrs (cats : Catalogs) (ch : Character)
    (attrs : List (String × AttrVal)) : Except String (Character × List String) :=
  attrs.foldlM (set_attrs_step cats) (ch, [])

/-! ## Construction: `Character.__init__` (character.py lines 228-282) -/

/-- `attrs.get(k)` on the description dictionary. -/
def lookupAttr (attrs : List (String × AttrVal)) (k : String) : Option AttrVal :=
  (attrs.find? (fun kv => kv.1 = k)).map Prod.snd

/-- `attrs.pop(k)` (the removal part) for several keys. -/
def removeKeys (attrs : List (String × AttrVal)) (ks : List String) :
    List (String × AttrVal) :=
  attrs.filter (fun kv => ¬ kv.1 ∈ ks)

/-- Level value of the legacy singular `level` key (`add_class` coerces
strings with `int(level)`; unparseable strings, which would raise in
Python, default here — the legacy branch is not exercised by any
claim). -/
def levelOfVal : AttrVal → Nat
  | .int n => n.toNat
  | .str s => s.toNat?.getD 1
  | _ => 1

/-- The `race` value popped from the description, as a setter input
(`attrs.pop("race", None)`, line 278). -/
def raceInputOfAttrs (attrs : List (String × AttrVal)) : RaceInput :=
  match lookupAttr attrs "race" with
  | none => RaceInput.pynone
  | some (.str s) => RaceInput.name s
  | some _ => RaceInput.other

/-- The `background` value popped from the description, as a setter
input (`attrs.pop("background", None)`, line 279). -/
def backgroundInputOfAttrs (attrs : List (String × AttrVal)) : BackgroundInput :=
  match lookupAttr attrs "background" with
  | none => BackgroundInput.pynone
  | some (.str s) => BackgroundInput.name s
  | some _ => BackgroundInput.other

/-- The backwards-compatibility normalization at the top of `__init__`
(lines 260-269): an empty `classes` argument falls back to the legacy
singular `class`/`level`/`subclass` keys (popped from the description)
or to a default level-1 Fighter. -/
def legacyClassArgs (classes_arg : List ClassInput) (levels_arg : List Nat)
    (subclasses_arg : List (Option String)) (attrs : List (String × AttrVal)) :
    List ClassInput × List Nat × List (Option String) × List (String × AttrVal) :=
  if classes_arg.isEmpty then
    match lookupAttr attrs "class" with
    | some (.str s) =>
      let lvl := (lookupAttr attrs "level").map levelOfVal |>.getD 1
      ([ClassInput.str s], [lvl], [(none : Option String)],
        removeKeys attrs ["class", "level", "subclass"])
    | _ => ([ClassInput.str "Fighter"], [1], [none], attrs)
  else (classes_arg, levels_arg, subclasses_arg, attrs)

/-- `Character.__init__(classes, levels, subclasses, **attrs)`
(lines 228-282): `clear()`, the legacy singular-key fallback (or a
default level-1 Fighter), `add_classes`, the `race`/`background`
setters (their keys popped from the description), `set_attrs` on the
remainder, and finally `__set_max_hp(attrs.get("hp_max", None))`.
Returns the constructed character and the accumulated warnings;
`.error` models an exception escaping the constructor. -/
def Character.init (cats : Catalogs) (classes_arg : List ClassInput)
    (levels_arg : List Nat) (subclasses_arg : List (Option String))
    (attrs : List (String × AttrVal)) : Except String (Character × List String) := do
  let base : Character := {}
  let args := legacyClassArgs classes_arg levels_arg subclasses_arg attrs
  let myClasses := args.1
  let myLevels := args.2.1
  let mySubs := args.2.2.1
  let attrs := args.2.2.2
  let ch ← base.add_classes myClasses myLevels mySubs
  let pr := race_setter cats.races ch.race (raceInputOfAttrs attrs)
  let ch := { ch with race := pr.1 }
  let pb := background_setter cats.backgrounds ch.background (backgroundInputOfAttrs attrs)
  let ch := { ch with background := pb.1 }
  let attrs := removeKeys attrs ["race", "background"]
  let pw ← ch.set_attrs cats attrs
  let ch ← pw.1.set_max_hp (lookupAttr attrs "hp_max")
  pure (ch,
    (if pr.2 then ["Race not defined"] else [])
      ++ (if pb.2 then ["Background not defined"] else []) ++ pw.2)

/-! ## Concrete example characters -/

/-- A freshly constructed level-1 Fighter. -/
def exampleFighter1 : Character := { class_list := [mkClassEntry .fighter 1 none] }

/-- A level-3 Fighter with constitution modifier +2. -/
def exampleFighter3 : Character :=
  { class_list := [mkClassEntry .fighter 3 none], constitution_modifier := 2 }

/-- Fighter 3 / Wizard 2 multiclass with constitution modifier +2. -/
def exampleMultiHp : Character :=
  { class_list := [mkClassEntry .fighter 3 none, mkClassEntry .wizard 2 none]
    constitution_modifier := 2 }

/-- A level-6 Cleric entry (full caster). -/
def exampleCleric6 : ClassEntry := { kind := .cleric, level := 6, is_spellcaster := true }

/-- A level-6 Paladin entry (half caster). -/
def examplePaladin6 : ClassEntry := { kind := .paladin, level := 6, is_spellcaster := true }

/-- Cleric 6 / Paladin 6: one full caster plus one half caster. -/
def exampleMulticaster : Character := { class_list := [exampleCleric6, examplePaladin6] }

/-- A level-3 Warlock entry whose own Pact Magic table grants two slots
at spell levels 1 and 2. -/
def exampleWarlock3 : ClassEntry :=
  { kind := .warlock, level := 3, is_spellcaster := true
    ownSpellSlots := fun sl => if sl = 1 ∨ sl = 2 then 2 else 0 }

/-- A character whose only class is the level-3 Warlock. -/
def examplePureWarlock : Character := { class_list := [exampleWarlock3] }

/-- A level-2 Bard entry with three first-level slots of its own. -/
def exampleBard2 : ClassEntry :=
  { kind := .bard, level := 2, is_spellcaster := true
    ownSpellSlots := fun sl => if sl = 1 then 3 else 0 }

/-- Bard 2 / Warlock 3: exactly one non-Warlock spellcasting class. -/
def exampleBardlock : Character := { class_list := [exampleBard2, exampleWarlock3] }

/-- Two class entries, one granting "Fighting Style (Archery)" and one
granting the "Fighting Style (Select One)" placeholder; no custom
features. -/
def c1ClassStyleChar : Character :=
  { class_list :=
      [{ kind := .fighter, level := 1, features := ["Fighting Style (Archery)"] },
       { kind := .fighter, level := 1, features := ["Fighting Style (Select One)"] }]
    race := some genericRace }

/-- A class-granted placeholder together with a user-declared (custom)
concrete fighting style. -/
def c1CustomStyleChar : Character :=
  { class_list :=
      [{ kind := .fighter, level := 1, features := ["Fighting Style (Select One)"] }]
    custom_features := ["Fighting Style (Archery)"]
    race := some genericRace }

/-- Constructing a level-1 Fighter from an empty description. -/
def c6Init : Except String (Character × List String) :=
  Character.init {} [ClassInput.cls .fighter] [1] [none] []

/-- The character constructed by `c6Init`. -/
def c6Char : Character := (c6Init.toOption.map Prod.fst).getD {}

/-- The warnings produced by `c6Init`. -/
def c6Warnings : List String := (c6Init.toOption.map Prod.snd).getD []

/-- A description with one known scalar attribute and one unknown one. -/
def c9Attrs : List (String × AttrVal) :=
  [("alignment", .str "Chaotic Good"), ("favorite_color", .str "blue")]

/-- Constructing a Fighter 3 from `c9Attrs`. -/
def c9Init : Except String (Character × List String) :=
  Character.init {} [ClassInput.str "fighter"] [3] [none] c9Attrs

/-- The character constructed by `c9Init`. -/
def c9Char : Character := (c9Init.toOption.map Prod.fst).getD {}

/-- The warnings produced by `c9Init`. -/
def c9Warnings : List String := (c9Init.toOption.map Prod.snd).getD []

/-! # Theorems -/

/-- Claim C10: for every character, `wear_armor` and `wield_shield`
applied to Python `None`, the empty string, or the literal string
`"None"` are no-ops: the whole character — `armor`/`shield` included —
is returned unchanged. -/
theorem wear_wield_noop_on_empty (lookup : String → Option Mechanic) (ch : Character) :
    Character.wear_armor lookup ch .pynone = ch ∧
    Character.wear_armor lookup ch (.name "") = ch ∧
    Character.wear_armor lookup ch (.name "None") = ch ∧
    Character.wield_shield lookup ch .pynone = .ok ch ∧
    Character.wield_shield lookup ch (.name "") = .ok ch ∧
    Character.wield_shield lookup ch (.name "None") = .ok ch := by
  refine ⟨rfl, ?_, ?_, rfl, ?_, ?_⟩ <;>
    simp [Character.wear_armor, Character.wield_shield]

/-- Claim C8, counterexample: setting an *unknown shield name* via
`wield_shield` does not succeed with a placeholder — it raises a
`TypeError` (the unknown name string itself gets called), so the claim's
"in particular" clause is false on the code. -/
theorem wield_shield_unknown_name_raises :
    Character.wield_shield (fun _ => none) exampleFighter1 (.name "turbo shield")
      = .error "TypeError: str object is not callable" := rfl

/-- Claim C8, amended: an unrecognized name in the categories resolved
through `_resolve_mechanic` (spell, feature, weapon, armor via
`wear_armor`, magic item, infusion) warns and yields a synthesized
placeholder whose name is the title-cased, space-separated rendering of
the raw name with an `"Unknown"` provenance marker — but `wield_shield`
does not use the resolver: an unknown shield name raises a `TypeError`
instead of producing a placeholder. -/
theorem resolve_unknown_yields_placeholder :
    (∀ (lookup : String → Option Mechanic) (s : String), lookup s = none →
      resolve_mechanic lookup (.name s) =
        ({ name := pyTitle (pyUnderscoreToSpace s), source := "Unknown" }, true)) ∧
    (∀ (lookup : String → Option Mechanic) (ch : Character) (s : String),
      s ≠ "" → s ≠ "None" → lookup s = none →
      Character.wield_shield lookup ch (.name s)
        = .error "TypeError: str object is not callable") := by
  constructor
  · intro lookup s h
    simp [resolve_mechanic, h]
  · intro lookup ch s h1 h2 h3
    simp [Character.wield_shield, h1, h2, h3]

/-- Witness for `resolve_unknown_yields_placeholder` at concrete
inputs: the unknown spell name `"magic_sword"` resolves to the
placeholder `"Magic Sword"` tagged `"Unknown"` with a warning, and an
unknown shield name raises. -/
theorem resolve_unknown_yields_placeholder_witness :
    resolve_mechanic (fun _ => none) (.name "magic_sword")
      = ({ name := "Magic Sword", source := "Unknown" }, true) ∧
    Character.wield_shield (fun _ => none) exampleFighter1 (.name "dancing shield")
      = .error "TypeError: str object is not callable" :=
  ⟨(resolve_unknown_yields_placeholder.1 (fun _ => none) "magic_sword" rfl).trans (by rfl),
   resolve_unknown_yields_placeholder.2 (fun _ => none) exampleFighter1 "dancing shield"
     (by decide) (by decide) rfl⟩

/-- Claim C7: `add_class` on a class-name string that does not resolve
in the class catalog fails with a hard `AttributeError` (no placeholder
class is synthesized), and on a recognized name appends the resolved
entry to `class_list`. -/
theorem add_class_hard_error_or_append :
    (∀ (ch : Character) (s : String) (lvl : Nat) (sub : Option String),
      classesCatalog (normalizeClassName s) = none →
      ch.add_class (.str s) lvl sub =
        .error ("AttributeError: class was not recognized from classes.py: "
          ++ normalizeClassName s)) ∧
    (∀ (ch : Character) (s : String) (lvl : Nat) (sub : Option String)
        (k : CharClassKind),
      classesCatalog (normalizeClassName s) = some k →
      ch.add_class (.str s) lvl sub =
        .ok { ch with class_list := ch.class_list ++ [mkClassEntry k lvl sub] }) := by
  constructor
  · intro ch s lvl sub h
    simp [Character.add_class, h]
  · intro ch s lvl sub k h
    simp [Character.add_class, h]

/-- Witness for `add_class_hard_error_or_append`: `" jedi "` normalizes
to `"Jedi"`, is not in the catalog and errors; `"fighter"` normalizes to
`"Fighter"` and appends a Fighter entry. -/
theorem add_class_hard_error_or_append_witness :
    exampleFighter1.add_class (.str " jedi ") 2 none =
      .error ("AttributeError: class was not recognized from classes.py: Jedi") ∧
    exampleFighter1.add_class (.str "fighter") 2 none =
      .ok { exampleFighter1 with
              class_list := exampleFighter1.class_list ++ [mkClassEntry .fighter 2 none] } :=
  ⟨(add_class_hard_error_or_append.1 exampleFighter1 " jedi " 2 none rfl).trans (by rfl),
   add_class_hard_error_or_append.2 exampleFighter1 "fighter" 2 none .fighter rfl⟩

/-- Claim C3: with zero non-Warlock spellcasting classes `spell_slots`
returns exactly the Warlock-derived slot count (a pure Warlock gets its
own Pact Magic count, the multiclass table untouched); with exactly one
it returns that class's own `spell_slots` plus the Warlock
contribution. -/
theorem spell_slots_zero_or_one_nonwarlock :
    (∀ (ch : Character) (sl : Nat),
      ch.spellcastingClassesExcludingWarlock = [] →
      ch.spell_slots sl = some (ch.warlockSlots sl)) ∧
    (∀ (ch : Character) (c : ClassEntry) (sl : Nat),
      ch.spellcastingClassesExcludingWarlock = [c] →
      ch.spell_slots sl = some (c.ownSpellSlots sl + ch.warlockSlots sl)) := by
  constructor
  · intro ch sl h
    simp [Character.spell_slots, h]
  · intro ch c sl h
    simp [Character.spell_slots, h]

/-- Witness for `spell_slots_zero_or_one_nonwarlock`: the pure level-3
Warlock gets its own two slots at spell level 1, and Bard 2 / Warlock 3
gets the Bard's own three plus the Warlock's two. -/
theorem spell_slots_zero_or_one_nonwarlock_witness :
    examplePureWarlock.spell_slots 1 = some 2 ∧
    exampleBardlock.spell_slots 1 = some 5 := by
  constructor
  · rw [spell_slots_zero_or_one_nonwarlock.1 examplePureWarlock 1 rfl]
    rfl
  · rw [spell_slots_zero_or_one_nonwarlock.2 exampleBardlock exampleBard2 1 rfl]
    rfl

/-- Claim C2: with two or more non-Warlock spellcasting classes and
spell level ≥ 1, `spell_slots` is the fixed multiclass-table entry
indexed by the effective caster level (the sum of the per-family
contributions computed by `casterLevelContrib`: full level for
Bard/Cleric/Druid/Sorceror/Wizard, `level // 2` for Paladin/Ranger,
`level // 3` for Fighter/Rogue, `ceil(level / 2)` for Artificer) plus
the Warlock contribution — or the Warlock contribution alone when the
effective level is 0. -/
theorem spell_slots_multiclass_uses_table (ch : Character) (sl : Nat)
    (h2 : 2 ≤ ch.spellcastingClassesExcludingWarlock.length) (hsl : 1 ≤ sl) :
    ch.spell_slots sl =
      if ch.effectiveCasterLevel = 0 then some (ch.warlockSlots sl)
      else
        (multiclass_spellslots_by_level ch.effectiveCasterLevel).bind
          (fun row => (row.get? sl).map (fun v => v + ch.warlockSlots sl)) := by
  have hsl0 : ¬ sl = 0 := by omega
  match hW : ch.spellcastingClassesExcludingWarlock with
  | [] => rw [hW] at h2; simp at h2
  | [c] => rw [hW] at h2; simp at h2
  | a :: b :: t => simp [Character.spell_slots, hW, hsl0]

/-- Witness for `spell_slots_multiclass_uses_table`: Cleric 6 /
Paladin 6 has effective caster level 6 + 6 // 2 = 9, and
`spell_slots(1)` is the level-9 table entry 4 (plus the zero Warlock
contribution). -/
theorem spell_slots_multiclass_uses_table_witness :
    exampleMulticaster.effectiveCasterLevel = 9 ∧
    exampleMulticaster.spell_slots 1 = some 4 := by
  refine ⟨rfl, ?_⟩
  rw [spell_slots_multiclass_uses_table exampleMulticaster 1 (by decide) (by decide)]
  rfl

/-- For a class with an even hit-dice face count (every catalog class),
the truncated per-level contribution is exactly
`(faces/2 + 1 + cm) * lvls`. -/
theorem hpLevelContrib_even (faces : Nat) (cm : Int) (lvls : Nat)
    (h : 2 ∣ faces) :
    hpLevelContrib faces cm lvls =
      (((faces / 2 : Nat) : Int) + 1 + cm) * lvls := by
  obtain ⟨m, rfl⟩ := h
  unfold hpLevelContrib
  have h2 : (((2 * m : Nat) : Int) + 2 + 2 * cm) * (lvls : Int)
      = 2 * ((((m : Nat) : Int) + 1 + cm) * lvls) := by
    push_cast
    ring
  rw [h2, Int.mul_tdiv_cancel_left _ (by omega), Nat.mul_div_cancel_left m (by omega)]

/-- Claim C4: without an explicit maximum, a single-class character's
hit points are `faces + con_mod + (level-1) * (faces/2 + 1 + con_mod)`,
and in general every entry contributes `faces/2 + 1 + con_mod` per
level, the primary entry counting one fewer level because its first
level is the full face value plus the modifier.  (Catalog hit dice are
even, which the hypothesis `2 ∣ hit_dice_faces` records; the Python
float arithmetic is then exact.) -/
theorem computed_hp_max_formula :
    (∀ (ch : Character) (c : ClassEntry),
      ch.class_list = [c] → 1 ≤ c.level → 2 ∣ c.hit_dice_faces →
      ch.computedHpMax = some ((c.hit_dice_faces : Int) + ch.constitution_modifier
        + ((c.level : Int) - 1)
          * (((c.hit_dice_faces / 2 : Nat) : Int) + 1 + ch.constitution_modifier))) ∧
    (∀ (ch : Character) (p : ClassEntry) (rest : List ClassEntry),
      ch.class_list = p :: rest → 1 ≤ p.level →
      (∀ c ∈ ch.class_list, 2 ∣ c.hit_dice_faces) →
      ch.computedHpMax = some ((p.hit_dice_faces : Int) + ch.constitution_modifier
        + ((p.level : Int) - 1)
          * (((p.hit_dice_faces / 2 : Nat) : Int) + 1 + ch.constitution_modifier)
        + (rest.map (fun c =>
            (c.level : Int) * (((c.hit_dice_faces / 2 : Nat) : Int) + 1
              + ch.constitution_modifier))).sum)) := by
  have main : ∀ (ch : Character) (p : ClassEntry) (rest : List ClassEntry),
      ch.class_list = p :: rest → 1 ≤ p.level →
      (∀ c ∈ ch.class_list, 2 ∣ c.hit_dice_faces) →
      ch.computedHpMax = some ((p.hit_dice_faces : Int) + ch.constitution_modifier
        + ((p.level : Int) - 1)
          * (((p.hit_dice_faces / 2 : Nat) : Int) + 1 + ch.constitution_modifier)
        + (rest.map (fun c =>
            (c.level : Int) * (((c.hit_dice_faces / 2 : Nat) : Int) + 1
              + ch.constitution_modifier))).sum) := by
    intro ch p rest hcl hlvl heven
    have hp0 : ¬ p.level = 0 := by omega
    unfold Character.computedHpMax
    rw [hcl]
    simp only [hp0, if_false]
    congr 1
    have hprim : hpLevelContrib p.hit_dice_faces ch.constitution_modifier (p.level - 1)
        = ((p.level : Int) - 1)
          * (((p.hit_dice_faces / 2 : Nat) : Int) + 1 + ch.constitution_modifier) := by
      rw [hpLevelContrib_even _ _ _ (heven p (hcl ▸ List.mem_cons_self p rest))]
      have : (((p.level - 1 : Nat)) : Int) = (p.level : Int) - 1 := by omega
      rw [this, mul_comm]
    have hrest : (rest.map (fun c =>
        hpLevelContrib c.hit_dice_faces ch.constitution_modifier c.level)).sum
        = (rest.map (fun c => (c.level : Int)
            * (((c.hit_dice_faces / 2 : Nat) : Int) + 1
              + ch.constitution_modifier))).sum := by
      apply congrArg
      apply List.map_congr_left
      intro c hc
      rw [hpLevelContrib_even _ _ _ (heven c (hcl ▸ List.mem_cons_of_mem p hc)), mul_comm]
    rw [hprim, hrest]
  refine ⟨?_, main⟩
  intro ch c hcl hlvl heven
  have hall : ∀ x ∈ ch.class_list, 2 ∣ x.hit_dice_faces := by
    intro x hx
    rw [hcl] at hx
    simp only [List.mem_singleton] at hx
    rw [hx]
    exact heven
  have := main ch c [] hcl hlvl hall
  simpa using this

/-- Witness for `computed_hp_max_formula`: a level-3 Fighter with +2
constitution has `10 + 2 + 2 * (5 + 1 + 2) = 28` hit points, and
Fighter 3 / Wizard 2 with +2 constitution has `28 + 2 * (3 + 1 + 2) =
40`. -/
theorem computed_hp_max_formula_witness :
    exampleFighter3.computedHpMax = some 28 ∧
    exampleMultiHp.computedHpMax = some 40 := by
  constructor
  · rw [computed_hp_max_formula.1 exampleFighter3 (mkClassEntry .fighter 3 none) rfl
      (by decide) (by decide)]
    decide
  · rw [computed_hp_max_formula.2 exampleMultiHp (mkClassEntry .fighter 3 none)
      [mkClassEntry .wizard 2 none] rfl (by decide) (by decide)]
    decide

/-- Claim C5, counterexample: an explicitly supplied hit-point maximum
of `0` is *not* used directly — `if hp_max:` is falsy at `0`, so the
per-class formula runs instead (a fresh level-1 Fighter gets 10, not
0). -/
theorem set_max_hp_zero_not_used :
    (exampleFighter1.set_max_hp (some (.int 0))).toOption.map Character.hp_max
      = some (some 10) ∧
    ¬ (exampleFighter1.set_max_hp (some (.int 0))).toOption.map Character.hp_max
      = some (some 0) := by
  exact ⟨rfl, by decide⟩

/-- Claim C5, amended: a supplied *nonzero* integer is used directly as
`hp_max`; a supplied `0` is falsy, so it is treated as absent and the
per-class formula is applied; a truthy non-integer value fails the
`isinstance` assertion.  (Python `bool` is an `int` subclass, so `True`
is accepted as 1.) -/
theorem set_max_hp_amended :
    (∀ (ch : Character) (n : Int), n ≠ 0 →
      ch.set_max_hp (some (.int n)) = .ok { ch with hp_max := some n }) ∧
    (∀ ch : Character, ch.set_max_hp (some (.int 0)) = ch.set_max_hp none) ∧
    (∀ (ch : Character) (v : AttrVal), v.truthy = true →
      (∀ n, v ≠ .int n) → (∀ b, v ≠ .bool b) →
      ch.set_max_hp (some v) = .error "AssertionError: hp_max must be an int") := by
  refine ⟨?_, ?_, ?_⟩
  · intro ch n hn
    simp [Character.set_max_hp, AttrVal.truthy, hn]
  · intro ch
    simp [Character.set_max_hp, AttrVal.truthy]
  · intro ch v htruthy hint hbool
    cases v with
    | int n => exact absurd rfl (hint n)
    | bool b => exact absurd rfl (hbool b)
    | str s => simp [Character.set_max_hp, AttrVal.truthy] at htruthy ⊢; simp [htruthy]
    | strList l => simp [Character.set_max_hp, AttrVal.truthy] at htruthy ⊢; simp [htruthy]
    | typeLike => simp [Character.set_max_hp, AttrVal.truthy]

/-- Witness for `set_max_hp_amended`: 25 is used directly, 0 falls back
to the computed 10, and the string `"abc"` raises. -/
theorem set_max_hp_amended_witness :
    exampleFighter1.set_max_hp (some (.int 25))
      = .ok { exampleFighter1 with hp_max := some 25 } ∧
    exampleFighter1.set_max_hp (some (.int 0)) = exampleFighter1.set_max_hp none ∧
    exampleFighter1.set_max_hp (some (.str "abc"))
      = .error "AssertionError: hp_max must be an int" :=
  ⟨set_max_hp_amended.1 exampleFighter1 25 (by decide),
   set_max_hp_amended.2.1 exampleFighter1,
   set_max_hp_amended.2.2 exampleFighter1 (.str "abc") (by decide)
     (fun n h => by cases h) (fun b h => by cases h)⟩

/-- After processing at least one class entry with
`fighting_style_defined = true`, the placeholder is absent: every step
ends with an `erase` of it. -/
theorem foldl_featuresClassStep_not_mem (l : List ClassEntry) (hl : l ≠ [])
    (init : Finset String) :
    fightingStyleSelectOne ∉ l.foldl (featuresClassStep true) init := by
  induction l generalizing init with
  | nil => exact absurd rfl hl
  | cons c cs ih =>
    cases cs with
    | nil =>
      simp [featuresClassStep]
    | cons c2 cs2 =>
      exact ih (by simp) _

/-- Any feature name other than the placeholder survives the class
aggregation loop. -/
theorem foldl_featuresClassStep_mem (fsd : Bool) (l : List ClassEntry)
    (init : Finset String) (x : String) (hx : x ∈ init)
    (hne : x ≠ fightingStyleSelectOne) :
    x ∈ l.foldl (featuresClassStep fsd) init := by
  induction l generalizing init with
  | nil => exact hx
  | cons c cs ih =>
    apply ih
    unfold featuresClassStep
    by_cases hf : fsd
    · simp [hf, Finset.mem_erase, hne]
      exact Or.inl hx
    · simp [hf]
      exact Or.inl hx

/-- Claim C1, counterexample: a character whose *class entries* grant
"Fighting Style (Archery)" and the "Fighting Style (Select One)"
placeholder (no custom features) keeps **both** in the final sorted
feature list — `fighting_style_defined` is decided from the custom
features alone, before class features are aggregated, so the
placeholder is not removed. -/
theorem features_class_style_keeps_placeholder :
    "Fighting Style (Select One)" ∈ c1ClassStyleChar.features ∧
    "Fighting Style (Archery)" ∈ c1ClassStyleChar.features := by
  constructor <;> (rw [Character.features, Finset.mem_sort]; decide)

/-- Claim C1, amended: the placeholder is removed only when one of the
six canonical fighting styles appears among the character's *custom*
(user-declared) features; in that case — provided neither race nor
background contributes the placeholder, which are merged after the
removal loop — the final sorted list omits "Fighting Style (Select
One)" and retains every custom concrete style.  A concrete style
granted only by class entries does not trigger the removal. -/
theorem features_placeholder_removed_for_custom_style (ch : Character)
    (hcustom : ∃ f ∈ ch.custom_features, f ∈ set_of_fighting_styles)
    (hclass : ch.class_list ≠ [])
    (hrace : ∀ r, ch.race = some r →
      fightingStyleSelectOne ∉ raceFeatureNames r ch.level)
    (hbg : ∀ b, ch.background = some b →
      fightingStyleSelectOne ∉ b.features) :
    fightingStyleSelectOne ∉ ch.features ∧
    ∀ f ∈ ch.custom_features, f ∈ set_of_fighting_styles → f ∈ ch.features := by
  have hsix : ∀ f ∈ set_of_fighting_styles, f ≠ fightingStyleSelectOne := by decide
  have hfsd : ch.custom_features.any (fun f => f ∈ set_of_fighting_styles) = true := by
    rw [List.any_eq_true]
    obtain ⟨f, hf, hf6⟩ := hcustom
    exact ⟨f, hf, by simpa using hf6⟩
  have hne : ¬ ch.class_list.isEmpty := by
    cases h : ch.class_list with
    | nil => exact absurd h hclass
    | cons a l => simp [h]
  constructor
  · unfold Character.features Character.featuresSet
    rw [Finset.mem_sort]
    simp only [hfsd, hne, if_false, Bool.false_eq_true]
    have h1 : fightingStyleSelectOne
        ∉ ch.class_list.foldl (featuresClassStep true) ch.custom_features.toFinset :=
      foldl_featuresClassStep_not_mem ch.class_list hclass _
    cases hr : ch.race with
    | none =>
      cases hb : ch.background with
      | none => simpa using h1
      | some b =>
        have := hbg b hb
        simp only [Finset.mem_union, List.mem_toFinset]
        push_neg
        exact ⟨h1, by simpa using this⟩
    | some r =>
      have hrns := hrace r hr
      cases hb : ch.background with
      | none =>
        simp only [Finset.mem_union]
        push_neg
        exact ⟨h1, hrns⟩
      | some b =>
        have hbns := hbg b hb
        simp only [Finset.mem_union, List.mem_toFinset]
        push_neg
        exact ⟨⟨h1, hrns⟩, by simpa using hbns⟩
  · intro f hf hf6
    unfold Character.features Character.featuresSet
    rw [Finset.mem_sort]
    simp only [hfsd, hne, if_false, Bool.false_eq_true]
    have h1 : f ∈ ch.class_list.foldl (featuresClassStep true) ch.custom_features.toFinset :=
      foldl_featuresClassStep_mem true ch.class_list _ f (by simpa using hf) (hsix f hf6)
    cases hr : ch.race with
    | none =>
      cases hb : ch.background with
      | none => simpa using h1
      | some b => simp only [Finset.mem_union]; exact Or.inl h1
    | some r =>
      cases hb : ch.background with
      | none => simp only [Finset.mem_union]; exact Or.inl h1
      | some b => simp only [Finset.mem_union]; exact Or.inl (Or.inl h1)

/-- Witness for `features_placeholder_removed_for_custom_style`: a
custom "Fighting Style (Archery)" removes the class-granted
placeholder, leaving exactly the archery style. -/
theorem features_placeholder_removed_for_custom_style_witness :
    fightingStyleSelectOne ∉ c1CustomStyleChar.features ∧
    "Fighting Style (Archery)" ∈ c1CustomStyleChar.features := by
  have h := features_placeholder_removed_for_custom_style c1CustomStyleChar
    ⟨"Fighting Style (Archery)", by decide, by decide⟩
    (by intro h; cases h)
    (by intro r hr; cases hr; decide)
    (by intro b hb; cases hb)
  exact ⟨h.1, h.2 "Fighting Style (Archery)" (by decide) (by decide)⟩

/-! ## Frame lemmas for `set_attrs` and construction -/

/-- Reading any key other than the one written by `assocSet` is
unchanged. -/
theorem find?_assocSet_ne (l : List (String × AttrVal)) (k k2 : String)
    (v : AttrVal) (h : ¬ k = k2) :
    (assocSet l k v).find? (fun kv => kv.1 = k2) = l.find? (fun kv => kv.1 = k2) := by
  unfold assocSet
  induction l with
  | nil =>
    simp only [List.filter_nil, List.nil_append]
    rw [List.find?_cons_of_neg _ (by simpa using h)]
  | cons a rest ih =>
    rw [List.filter_cons]
    by_cases h0 : a.1 = k
    · have h2 : ¬ a.1 = k2 := fun e => h (h0.symm.trans e)
      rw [if_neg (by simp [h0]), List.find?_cons_of_neg _ (by simpa using h2)]
      exact ih
    · rw [if_pos (by simpa using h0), List.cons_append]
      by_cases h2 : a.1 = k2
      · rw [List.find?_cons_of_pos _ (by simpa using h2),
          List.find?_cons_of_pos _ (by simpa using h2)]
      · rw [List.find?_cons_of_neg _ (by simpa using h2),
          List.find?_cons_of_neg _ (by simpa using h2)]
        exact ih

/-- Reading back the key written by `assocSet`. -/
theorem find?_assocSet_self (l : List (String × AttrVal)) (k : String) (v : AttrVal) :
    (assocSet l k v).find? (fun kv => kv.1 = k) = some (k, v) := by
  unfold assocSet
  rw [List.find?_append]
  have hfilter : (l.filter (fun kv => ¬ kv.1 = k)).find? (fun kv => kv.1 = k) = none := by
    rw [List.find?_eq_none]
    intro x hx
    have := List.of_mem_filter hx
    simpa using this
  rw [hfilter]
  simp [List.find?]

/-- Common shape of a frame conclusion for one `set_attrs` step. -/
theorem stepFrame_of_untouched {acc out : Character × List String} {k : String}
    (ha : out.1.attrs = acc.1.attrs) (hr : out.1.race = acc.1.race)
    (hb : out.1.background = acc.1.background)
    (hw : ∃ extra, out.2 = acc.2 ++ extra) :
    (∀ k2, ¬ k = k2 → out.1.getattr k2 = acc.1.getattr k2) ∧
    (¬ k = "race" → out.1.race = acc.1.race) ∧
    (¬ k = "background" → out.1.background = acc.1.background) ∧
    (∃ extra, out.2 = acc.2 ++ extra) :=
  ⟨fun k2 _ => by simp [Character.getattr, ha], fun _ => hr, fun _ => hb, hw⟩

/-- `wieldAllNames` changes only `weapons` and the warning list. -/
theorem wieldAllNames_frame (cats : Catalogs) (names : List String)
    (acc : Character × List String) :
    (wieldAllNames cats acc names).1.attrs = acc.1.attrs ∧
    (wieldAllNames cats acc names).1.race = acc.1.race ∧
    (wieldAllNames cats acc names).1.background = acc.1.background ∧
    ∃ extra, (wieldAllNames cats acc names).2 = acc.2 ++ extra := by
  induction names generalizing acc with
  | nil => exact ⟨rfl, rfl, rfl, [], by simp [wieldAllNames]⟩
  | cons s rest ih =>
    have hstep : wieldAllNames cats acc (s :: rest)
        = wieldAllNames cats
            ((Character.wield_weapon cats acc.1 (.name s)).1,
              acc.2 ++ if (Character.wield_weapon cats acc.1 (.name s)).2
                then ["Unknown weapon: " ++ s] else []) rest := rfl
    rw [hstep]
    obtain ⟨h1, h2, h3, extra, h4⟩ := ih
      ((Character.wield_weapon cats acc.1 (.name s)).1,
        acc.2 ++ if (Character.wield_weapon cats acc.1 (.name s)).2
          then ["Unknown weapon: " ++ s] else [])
    refine ⟨h1.trans rfl, h2.trans rfl, h3.trans rfl, ?_⟩
    exact ⟨(if (Character.wield_weapon cats acc.1 (.name s)).2
      then ["Unknown weapon: " ++ s] else []) ++ extra, by rw [h4]; simp⟩

/-- `wear_armor` changes at most `armor`. -/
theorem wear_armor_frame (lookup : String → Option Mechanic) (ch : Character)
    (a : ArmorInput) :
    (Character.wear_armor lookup ch a).attrs = ch.attrs ∧
    (Character.wear_armor lookup ch a).race = ch.race ∧
    (Character.wear_armor lookup ch a).background = ch.background := by
  cases a with
  | pynone => exact ⟨rfl, rfl, rfl⟩
  | name s =>
    by_cases hs : s = "" ∨ s = "None" <;> simp [Character.wear_armor, hs]
  | instance_ m => exact ⟨rfl, rfl, rfl⟩
  | cls m => exact ⟨rfl, rfl, rfl⟩

/-- A successful `wield_shield` changes at most `shield`. -/
theorem wield_shield_frame (lookup : String → Option Mechanic) (ch ch' : Character)
    (a : ArmorInput) (h : Character.wield_shield lookup ch a = .ok ch') :
    ch'.attrs = ch.attrs ∧ ch'.race = ch.race ∧ ch'.background = ch.background := by
  cases a with
  | pynone => cases h; exact ⟨rfl, rfl, rfl⟩
  | name s =>
    simp only [Character.wield_shield] at h
    by_cases hs : s = "" ∨ s = "None"
    · rw [if_pos hs] at h
      cases h
      exact ⟨rfl, rfl, rfl⟩
    · rw [if_neg hs] at h
      cases hl : lookup s with
      | none => rw [hl] at h; cases h
      | some m => rw [hl] at h; cases h; exact ⟨rfl, rfl, rfl⟩
  | instance_ m => cases h
  | cls m => cases h; exact ⟨rfl, rfl, rfl⟩

/-- Frame property of one `set_attrs` step: a successful step for key
`k` leaves every other generic attribute unchanged, leaves `race` and
`background` unchanged unless `k` is that key, and only appends to the
warning list. -/
theorem set_attrs_step_frame (cats : Catalogs) (acc : Character × List String)
    (kv : String × AttrVal) (out : Character × List String)
    (h : set_attrs_step cats acc kv = .ok out) :
    (∀ k2, ¬ kv.1 = k2 → out.1.getattr k2 = acc.1.getattr k2) ∧
    (¬ kv.1 = "race" → out.1.race = acc.1.race) ∧
    (¬ kv.1 = "background" → out.1.background = acc.1.background) ∧
    (∃ extra, out.2 = acc.2 ++ extra) := by
  obtain ⟨k, v⟩ := kv
  simp only [set_attrs_step] at h
  by_cases h1 : k = "dungeonsheets_version"
  · rw [if_pos h1] at h
    injection h with h'
    subst h'
    exact stepFrame_of_untouched rfl rfl rfl ⟨[], by simp⟩
  rw [if_neg h1] at h
  by_cases h2 : k = "weapons"
  · rw [if_pos h2] at h
    cases hm : v.asNameListWrapped with
    | none => rw [hm] at h; cases h
    | some names =>
      rw [hm] at h
      injection h with h'
      subst h'
      obtain ⟨ha, hr, hb, hw⟩ := wieldAllNames_frame cats names (acc.1, acc.2)
      exact stepFrame_of_untouched ha hr hb hw
  rw [if_neg h2] at h
  by_cases h3 : k = "magic_items"
  · rw [if_pos h3] at h
    cases hm : v.asNameListWrapped with
    | none => rw [hm] at h; cases h
    | some names =>
      rw [hm] at h
      injection h with h'
      subst h'
      exact stepFrame_of_untouched rfl rfl rfl ⟨_, rfl⟩
  rw [if_neg h3] at h
  by_cases h4 : k = "weapon_proficiencies"
  · rw [if_pos h4] at h
    cases hm : v.asNameList with
    | none => rw [hm] at h; cases h
    | some names =>
      rw [hm] at h
      injection h with h'
      subst h'
      exact stepFrame_of_untouched rfl rfl rfl ⟨_, rfl⟩
  rw [if_neg h4] at h
  by_cases h5 : k = "armor"
  · rw [if_pos h5] at h
    cases v with
    | str s =>
      injection h with h'
      subst h'
      obtain ⟨ha, hr, hb⟩ := wear_armor_frame cats.armor acc.1 (.name s)
      exact stepFrame_of_untouched ha hr hb ⟨[], by simp⟩
    | int n => cases h
    | bool b => cases h
    | strList l => cases h
    | typeLike => cases h
  rw [if_neg h5] at h
  by_cases h6 : k = "shield"
  · rw [if_pos h6] at h
    cases v with
    | str s =>
      have hm : Except.map (fun ch' => (ch', acc.2))
          (Character.wield_shield cats.armor acc.1 (.name s)) = .ok out := h
      cases hws : Character.wield_shield cats.armor acc.1 (.name s) with
      | error e => rw [hws] at hm; cases hm
      | ok ch' =>
        rw [hws] at hm
        simp only [Except.map] at hm
        injection hm with h'
        subst h'
        obtain ⟨ha, hr, hb⟩ := wield_shield_frame cats.armor acc.1 ch' (.name s) hws
        exact stepFrame_of_untouched ha hr hb ⟨[], by simp⟩
    | int n => cases h
    | bool b => cases h
    | strList l => cases h
    | typeLike => cases h
  rw [if_neg h6] at h
  by_cases h7 : k = "circle"
  · rw [if_pos h7] at h
    by_cases hd : acc.1.class_list.any (fun c => c.kind = CharClassKind.druid)
    · rw [if_pos hd] at h
      injection h with h'
      subst h'
      exact stepFrame_of_untouched rfl rfl rfl ⟨[], by simp⟩
    · rw [if_neg hd] at h
      injection h with h'
      subst h'
      exact stepFrame_of_untouched rfl rfl rfl ⟨[], by simp⟩
  rw [if_neg h7] at h
  by_cases h8 : k = "features"
  · rw [if_pos h8] at h
    cases hm : v.asNameListWrapped with
    | none => rw [hm] at h; cases h
    | some names =>
      rw [hm] at h
      injection h with h'
      subst h'
      exact stepFrame_of_untouched rfl rfl rfl ⟨_, rfl⟩
  rw [if_neg h8] at h
  by_cases h9 : k = "spells"
  · rw [if_pos h9] at h
    cases hm : v.asNameList with
    | none => rw [hm] at h; cases h
    | some names =>
      rw [hm] at h
      injection h with h'
      subst h'
      exact stepFrame_of_untouched rfl rfl rfl ⟨_, rfl⟩
  rw [if_neg h9] at h
  by_cases h10 : k = "spells_prepared"
  · rw [if_pos h10] at h
    cases hm : v.asNameList with
    | none => rw [hm] at h; cases h
    | some names =>
      rw [hm] at h
      injection h with h'
      subst h'
      exact stepFrame_of_untouched rfl rfl rfl ⟨_, rfl⟩
  rw [if_neg h10] at h
  by_cases h11 : k = "infusions"
  · rw [if_pos h11] at h
    by_cases hd : acc.1.class_list.any (fun c => c.kind = CharClassKind.artificer)
    · rw [if_pos hd] at h
      cases hm : v.asNameList with
      | none => rw [hm] at h; cases h
      | some names =>
        rw [hm] at h
        injection h with h'
        subst h'
        exact stepFrame_of_untouched rfl rfl rfl ⟨_, rfl⟩
    · rw [if_neg hd] at h
      injection h with h'
      subst h'
      exact stepFrame_of_untouched rfl rfl rfl ⟨[], by simp⟩
  rw [if_neg h11] at h
  by_cases hty : v.isTypeLike
  · rw [if_pos hty] at h
    injection h with h'
    subst h'
    exact stepFrame_of_untouched rfl rfl rfl ⟨[], by simp⟩
  rw [if_neg hty] at h
  by_cases h13 : k ∈ readonlyPropertyKeys
  · rw [if_pos h13] at h
    cases h
  rw [if_neg h13] at h
  by_cases h14 : k = "race"
  · rw [if_pos h14] at h
    injection h with h'
    subst h'
    exact ⟨fun k2 _ => rfl, fun hr => absurd h14 hr, fun _ => rfl, ⟨_, rfl⟩⟩
  rw [if_neg h14] at h
  by_cases h15 : k = "background"
  · rw [if_pos h15] at h
    injection h with h'
    subst h'
    exact ⟨fun k2 _ => rfl, fun _ => rfl, fun hb => absurd h15 hb, ⟨_, rfl⟩⟩
  rw [if_neg h15] at h
  by_cases h16 : k = "level"
  · rw [if_pos h16] at h
    cases hcl : acc.1.class_list with
    | nil => rw [hcl] at h; cases v <;> cases h
    | cons p rest =>
      rw [hcl] at h
      cases v with
      | int n =>
        injection h with h'
        subst h'
        exact stepFrame_of_untouched rfl rfl rfl ⟨_, rfl⟩
      | str s => cases h
      | bool b => cases h
      | strList l => cases h
      | typeLike => cases h
  rw [if_neg h16] at h
  by_cases h17 : k = "hit_dice_faces"
  · rw [if_pos h17] at h
    cases hcl : acc.1.class_list with
    | nil => rw [hcl] at h; cases v <;> cases h
    | cons p rest =>
      rw [hcl] at h
      cases v with
      | int n =>
        injection h with h'
        subst h'
        exact stepFrame_of_untouched rfl rfl rfl ⟨[], by simp⟩
      | str s => cases h
      | bool b => cases h
      | strList l => cases h
      | typeLike => cases h
  rw [if_neg h17] at h
  by_cases h18 : k = "saving_throw_proficiencies"
  · rw [if_pos h18] at h
    cases hm : v.asNameList with
    | none => rw [hm] at h; cases h
    | some names =>
      rw [hm] at h
      injection h with h'
      subst h'
      exact stepFrame_of_untouched rfl rfl rfl ⟨[], by simp⟩
  rw [if_neg h18] at h
  by_cases h19 : k = "wild_shapes"
  · rw [if_pos h19] at h
    injection h with h'
    subst h'
    exact stepFrame_of_untouched rfl rfl rfl ⟨[], by simp⟩
  rw [if_neg h19] at h
  injection h with h'
  subst h'
  refine ⟨?_, fun _ => rfl, fun _ => rfl, ⟨_, rfl⟩⟩
  intro k2 hk2
  show ((assocSet acc.1.attrs k v).find? (fun kv => kv.1 = k2)).map Prod.snd
    = (acc.1.attrs.find? (fun kv => kv.1 = k2)).map Prod.snd
  rw [find?_assocSet_ne acc.1.attrs k k2 v hk2]

/-- A key not given a dedicated branch (and a non-type value) takes the
plain-`setattr` path: the value is stored, and a warning is emitted
exactly when the attribute is unknown and not underscore-prefixed. -/
theorem set_attrs_step_generic (cats : Catalogs) (acc : Character × List String)
    (k : String) (v : AttrVal) (hk : ¬ k ∈ stepHandledKeys)
    (hv : v.isTypeLike = false) :
    set_attrs_step cats acc (k, v) =
      .ok ({ acc.1 with attrs := assocSet acc.1.attrs k v },
        acc.2 ++ if ¬ acc.1.hasattr k ∧ ¬ startsWithUnderscore k
          then ["Setting unknown character attribute " ++ k] else []) := by
  have hmem : ∀ s : String, s ∈ stepHandledKeys → ¬ k = s :=
    fun s hs e => hk (by rw [e]; exact hs)
  have hro : ¬ k ∈ readonlyPropertyKeys :=
    fun hm => hk (by unfold stepHandledKeys; exact List.mem_append_right _ hm)
  simp only [set_attrs_step]
  rw [if_neg (hmem "dungeonsheets_version" (by decide)),
    if_neg (hmem "weapons" (by decide)),
    if_neg (hmem "magic_items" (by decide)),
    if_neg (hmem "weapon_proficiencies" (by decide)),
    if_neg (hmem "armor" (by decide)),
    if_neg (hmem "shield" (by decide)),
    if_neg (hmem "circle" (by decide)),
    if_neg (hmem "features" (by decide)),
    if_neg (hmem "spells" (by decide)),
    if_neg (hmem "spells_prepared" (by decide)),
    if_neg (hmem "infusions" (by decide)),
    if_neg (show ¬ v.isTypeLike = true by simp [hv]),
    if_neg hro,
    if_neg (hmem "race" (by decide)),
    if_neg (hmem "background" (by decide)),
    if_neg (hmem "level" (by decide)),
    if_neg (hmem "hit_dice_faces" (by decide)),
    if_neg (hmem "saving_throw_proficiencies" (by decide)),
    if_neg (hmem "wild_shapes" (by decide))]

/-- Frame property of the whole `set_attrs` fold. -/
theorem set_attrs_fold_frame (cats : Catalogs) (l : List (String × AttrVal))
    (acc out : Character × List String)
    (h : l.foldlM (set_attrs_step cats) acc = .ok out) :
    (∀ k2, ¬ k2 ∈ l.map Prod.fst → out.1.getattr k2 = acc.1.getattr k2) ∧
    (¬ "race" ∈ l.map Prod.fst → out.1.race = acc.1.race) ∧
    (¬ "background" ∈ l.map Prod.fst → out.1.background = acc.1.background) ∧
    (∃ extra, out.2 = acc.2 ++ extra) := by
  induction l generalizing acc with
  | nil =>
    simp only [List.foldlM_nil] at h
    injection h with h'
    subst h'
    exact ⟨fun _ _ => rfl, fun _ => rfl, fun _ => rfl, ⟨[], by simp⟩⟩
  | cons kv rest ih =>
    rw [List.foldlM_cons] at h
    cases hstep : set_attrs_step cats acc kv with
    | error e =>
      rw [hstep] at h
      simp only [Bind.bind, Except.bind] at h
      cases h
    | ok mid =>
      rw [hstep] at h
      simp only [Bind.bind, Except.bind] at h
      obtain ⟨f1, f2, f3, f4⟩ := set_attrs_step_frame cats acc kv mid hstep
      obtain ⟨g1, g2, g3, gextra, g4⟩ := ih mid h
      refine ⟨?_, ?_, ?_, ?_⟩
      · intro k2 hk2
        rw [List.map_cons, List.mem_cons] at hk2
        push_neg at hk2
        exact (g1 k2 hk2.2).trans (f1 k2 (fun e => hk2.1 e.symm))
      · intro hk2
        rw [List.map_cons, List.mem_cons] at hk2
        push_neg at hk2
        exact (g2 hk2.2).trans (f2 (fun e => hk2.1 e.symm))
      · intro hk2
        rw [List.map_cons, List.mem_cons] at hk2
        push_neg at hk2
        exact (g3 hk2.2).trans (f3 (fun e => hk2.1 e.symm))
      · obtain ⟨e1, he1⟩ := f4
        exact ⟨e1 ++ gextra, by rw [g4, he1, List.append_assoc]⟩

/-- Round-trip through the `set_attrs` fold: a generic key's value is
stored and read back, and an unknown attribute key produces the
warning. -/
theorem set_attrs_fold_generic (cats : Catalogs) (l : List (String × AttrVal))
    (acc out : Character × List String)
    (h : l.foldlM (set_attrs_step cats) acc = .ok out)
    (hnd : (l.map Prod.fst).Nodup) (k : String) (v : AttrVal)
    (hmem : (k, v) ∈ l) (hk : ¬ k ∈ stepHandledKeys) (hv : v.isTypeLike = false) :
    out.1.getattr k = some v ∧
    (acc.1.getattr k = none → ¬ k ∈ knownCharacterAttrs →
      startsWithUnderscore k = false →
      ("Setting unknown character attribute " ++ k) ∈ out.2) := by
  induction l generalizing acc with
  | nil => cases hmem
  | cons kv0 rest ih =>
    rw [List.foldlM_cons] at h
    rw [List.map_cons, List.nodup_cons] at hnd
    cases hstep : set_attrs_step cats acc kv0 with
    | error e =>
      rw [hstep] at h
      simp only [Bind.bind, Except.bind] at h
      cases h
    | ok mid =>
      rw [hstep] at h
      simp only [Bind.bind, Except.bind] at h
      rcases List.mem_cons.mp hmem with heq | hmem2
      · subst heq
        rw [set_attrs_step_generic cats acc k v hk hv] at hstep
        injection hstep with h'
        subst h'
        obtain ⟨g1, g2, g3, gextra, g4⟩ := set_attrs_fold_frame cats rest _ out h
        have hkeys : ¬ k ∈ rest.map Prod.fst := hnd.1
        constructor
        · rw [g1 k hkeys]
          show ((assocSet acc.1.attrs k v).find? (fun kv => kv.1 = k)).map Prod.snd
            = some v
          rw [find?_assocSet_self]
          rfl
        · intro hnone hknown hus
          have hcond : ¬ acc.1.hasattr k ∧ ¬ startsWithUnderscore k := by
            constructor
            · simp [Character.hasattr, hknown, hnone]
            · simp [hus]
          rw [g4]
          rw [if_pos hcond]
          exact List.mem_append_left _ (List.mem_append_right _ (by simp))
      · have hkrest : k ∈ rest.map Prod.fst :=
          List.mem_map.mpr ⟨(k, v), hmem2, rfl⟩
        have hne : ¬ kv0.1 = k := fun e => hnd.1 (e ▸ hkrest)
        obtain ⟨f1, f2, f3, f4⟩ := set_attrs_step_frame cats acc kv0 mid hstep
        obtain ⟨c1, c2⟩ := ih mid h hnd.2 hmem2
        refine ⟨c1, ?_⟩
        intro hnone hknown hus
        exact c2 ((f1 k hne).trans hnone) hknown hus

/-- `add_class` touches only `class_list`. -/
theorem add_class_frame (ch ch' : Character) (c : ClassInput) (lvl : Nat)
    (sub : Option String) (h : ch.add_class c lvl sub = .ok ch') :
    ch'.attrs = ch.attrs ∧ ch'.race = ch.race ∧ ch'.background = ch.background := by
  cases c with
  | str s =>
    simp only [Character.add_class] at h
    cases hc : classesCatalog (normalizeClassName s) with
    | none => rw [hc] at h; cases h
    | some k => rw [hc] at h; injection h with h'; subst h'; exact ⟨rfl, rfl, rfl⟩
  | cls k =>
    simp only [Character.add_class] at h
    injection h with h'
    subst h'
    exact ⟨rfl, rfl, rfl⟩

/-- The `add_classes` fold touches only `class_list`. -/
theorem add_class_foldlM_frame (l : List (ClassInput × Nat × Option String)) :
    ∀ (ch ch' : Character),
    l.foldlM (fun acc t => Character.add_class acc t.1 t.2.1 t.2.2) ch = .ok ch' →
    ch'.attrs = ch.attrs ∧ ch'.race = ch.race ∧ ch'.background = ch.background := by
  induction l with
  | nil =>
    intro ch ch' h
    simp only [List.foldlM_nil] at h
    injection h with h'
    subst h'
    exact ⟨rfl, rfl, rfl⟩
  | cons t rest ih =>
    intro ch ch' h
    rw [List.foldlM_cons] at h
    cases hstep : Character.add_class ch t.1 t.2.1 t.2.2 with
    | error e =>
      rw [hstep] at h
      simp only [Bind.bind, Except.bind] at h
      cases h
    | ok mid =>
      rw [hstep] at h
      simp only [Bind.bind, Except.bind] at h
      obtain ⟨f1, f2, f3⟩ := add_class_frame ch mid t.1 t.2.1 t.2.2 hstep
      obtain ⟨g1, g2, g3⟩ := ih mid ch' h
      exact ⟨g1.trans f1, g2.trans f2, g3.trans f3⟩

/-- `add_classes` touches only `class_list`. -/
theorem add_classes_frame (ch ch' : Character) (cl : List ClassInput)
    (lv : List Nat) (sb : List (Option String))
    (h : ch.add_classes cl lv sb = .ok ch') :
    ch'.attrs = ch.attrs ∧ ch'.race = ch.race ∧ ch'.background = ch.background := by
  simp only [Character.add_classes] at h
  by_cases h1 : cl.length ≠ (if lv = [] then List.replicate cl.length 1 else lv).length
  · rw [if_pos h1] at h; cases h
  rw [if_neg h1] at h
  by_cases h2 : cl.length
      ≠ (if sb.isEmpty then List.replicate cl.length none else sb).length
  · rw [if_pos h2] at h; cases h
  rw [if_neg h2] at h
  exact add_class_foldlM_frame _ ch ch' h

/-- `__set_max_hp` touches only `hp_max`. -/
theorem set_max_hp_frame (ch ch' : Character) (v : Option AttrVal)
    (h : ch.set_max_hp v = .ok ch') :
    ch'.attrs = ch.attrs ∧ ch'.race = ch.race ∧ ch'.background = ch.background := by
  cases v with
  | none =>
    simp only [Character.set_max_hp] at h
    cases hcm : ch.computedHpMax with
    | none => rw [hcm] at h; cases h
    | some n => rw [hcm] at h; injection h with h'; subst h'; exact ⟨rfl, rfl, rfl⟩
  | some val =>
    simp only [Character.set_max_hp] at h
    by_cases ht : val.truthy
    · rw [if_pos ht] at h
      cases val with
      | int n => injection h with h'; subst h'; exact ⟨rfl, rfl, rfl⟩
      | bool b => injection h with h'; subst h'; exact ⟨rfl, rfl, rfl⟩
      | str s => cases h
      | strList l => cases h
      | typeLike => cases h
    · rw [if_neg ht] at h
      cases hcm : ch.computedHpMax with
      | none => rw [hcm] at h; cases h
      | some n => rw [hcm] at h; injection h with h'; subst h'; exact ⟨rfl, rfl, rfl⟩

/-- `removeKeys` does not disturb lookups of surviving keys. -/
theorem find?_removeKeys (attrs : List (String × AttrVal)) (ks : List String)
    (k : String) (h : ¬ k ∈ ks) :
    (removeKeys attrs ks).find? (fun kv => kv.1 = k)
      = attrs.find? (fun kv => kv.1 = k) := by
  unfold removeKeys
  induction attrs with
  | nil => rfl
  | cons kv rest ih =>
    rw [List.filter_cons]
    by_cases h0 : kv.1 ∈ ks
    · have hne : ¬ kv.1 = k := fun e => h (e ▸ h0)
      rw [if_neg (by simpa using h0), List.find?_cons_of_neg _ (by simpa using hne)]
      exact ih
    · rw [if_pos (by simpa using h0)]
      by_cases h2 : kv.1 = k
      · rw [List.find?_cons_of_pos _ (by simpa using h2),
          List.find?_cons_of_pos _ (by simpa using h2)]
      · rw [List.find?_cons_of_neg _ (by simpa using h2),
          List.find?_cons_of_neg _ (by simpa using h2)]
        exact ih

/-- `lookupAttr` version of `find?_removeKeys`. -/
theorem lookupAttr_removeKeys (attrs : List (String × AttrVal)) (ks : List String)
    (k : String) (h : ¬ k ∈ ks) :
    lookupAttr (removeKeys attrs ks) k = lookupAttr attrs k :=
  congrArg (Option.map Prod.snd) (find?_removeKeys attrs ks k h)

/-- Surviving entries stay in `removeKeys`. -/
theorem mem_removeKeys (attrs : List (String × AttrVal)) (ks : List String)
    (k : String) (v : AttrVal) (hm : (k, v) ∈ attrs) (h : ¬ k ∈ ks) :
    (k, v) ∈ removeKeys attrs ks :=
  List.mem_filter.mpr ⟨hm, by simpa using h⟩

/-- `removeKeys` preserves key `Nodup`-ness. -/
theorem nodup_keys_removeKeys (attrs : List (String × AttrVal)) (ks : List String)
    (h : (attrs.map Prod.fst).Nodup) :
    ((removeKeys attrs ks).map Prod.fst).Nodup :=
  h.sublist ((List.filter_sublist _).map _)

/-- A removed key does not appear among `removeKeys` keys. -/
theorem not_mem_keys_removeKeys (attrs : List (String × AttrVal)) (ks : List String)
    (k : String) (h : k ∈ ks) :
    ¬ k ∈ (removeKeys attrs ks).map Prod.fst := by
  intro hk
  obtain ⟨kv, hkv, he⟩ := List.mem_map.mp hk
  have hf := List.of_mem_filter hkv
  simp only [decide_eq_true_eq] at hf
  exact hf (he ▸ h)

/-- The legacy-argument normalization never disturbs lookups of keys
other than the popped `class`/`level`/`subclass`. -/
theorem lookupAttr_legacyClassArgs (cl : List ClassInput) (lv : List Nat)
    (sb : List (Option String)) (attrs : List (String × AttrVal)) (k : String)
    (hk : ¬ k ∈ ["class", "level", "subclass"]) :
    lookupAttr (legacyClassArgs cl lv sb attrs).2.2.2 k = lookupAttr attrs k := by
  unfold legacyClassArgs
  by_cases hc : cl.isEmpty
  · rw [if_pos hc]
    cases hl : lookupAttr attrs "class" with
    | none => rfl
    | some val =>
      cases val with
      | str s => exact lookupAttr_removeKeys attrs _ k hk
      | int n => rfl
      | bool b => rfl
      | strList l => rfl
      | typeLike => rfl
  · rw [if_neg hc]

/-- Entries with surviving keys stay in the normalized description. -/
theorem mem_legacyClassArgs (cl : List ClassInput) (lv : List Nat)
    (sb : List (Option String)) (attrs : List (String × AttrVal))
    (k : String) (v : AttrVal) (hm : (k, v) ∈ attrs)
    (hk : ¬ k ∈ ["class", "level", "subclass"]) :
    (k, v) ∈ (legacyClassArgs cl lv sb attrs).2.2.2 := by
  unfold legacyClassArgs
  by_cases hc : cl.isEmpty
  · rw [if_pos hc]
    cases hl : lookupAttr attrs "class" with
    | none => exact hm
    | some val =>
      cases val with
      | str s => exact mem_removeKeys attrs _ k v hm hk
      | int n => exact hm
      | bool b => exact hm
      | strList l => exact hm
      | typeLike => exact hm
  · rw [if_neg hc]
    exact hm

/-- The normalized description keeps its keys `Nodup`. -/
theorem nodup_legacyClassArgs (cl : List ClassInput) (lv : List Nat)
    (sb : List (Option String)) (attrs : List (String × AttrVal))
    (h : (attrs.map Prod.fst).Nodup) :
    (((legacyClassArgs cl lv sb attrs).2.2.2).map Prod.fst).Nodup := by
  unfold legacyClassArgs
  by_cases hc : cl.isEmpty
  · rw [if_pos hc]
    cases hl : lookupAttr attrs "class" with
    | none => exact h
    | some val =>
      cases val with
      | str s => exact nodup_keys_removeKeys attrs _ h
      | int n => exact h
      | bool b => exact h
      | strList l => exact h
      | typeLike => exact h
  · rw [if_neg hc]
    exact h

/-- Claim C6, counterexample: constructing a character from a
description supplying neither race nor background leaves `background`
null (`isSome = false`), while `race` does get an instance — the
background setter has no `None` branch. -/
theorem background_stays_none_after_init :
    (Character.init {} [ClassInput.cls .fighter] [1] [none] []).toOption.map
      (fun p => (p.1.race.isSome, p.1.background.isSome)) = some (true, false) := rfl

/-- Claim C6, amended: after construction, `race` is never null — an
unset (or `None`) race becomes the generic placeholder `Race()` — but
`background` has no such default: when the description supplies no
background (or `None`), `background` remains null; only a background
*value* reaching one of the setter's branches (an instance, a class, or
a name string) produces an instance. -/
theorem race_generic_background_stays_none :
    ∀ (cats : Catalogs) (cl : List ClassInput) (lv : List Nat)
      (sb : List (Option String)) (attrs : List (String × AttrVal))
      (ch : Character) (w : List String),
      Character.init cats cl lv sb attrs = .ok (ch, w) →
      lookupAttr attrs "race" = none →
      lookupAttr attrs "background" = none →
      ch.race = some genericRace ∧ ch.background = none := by
  intro cats cl lv sb attrs ch w h hrace hbg
  have hra1 : lookupAttr (legacyClassArgs cl lv sb attrs).2.2.2 "race" = none :=
    (lookupAttr_legacyClassArgs cl lv sb attrs "race" (by decide)).trans hrace
  have hbg1 : lookupAttr (legacyClassArgs cl lv sb attrs).2.2.2 "background" = none :=
    (lookupAttr_legacyClassArgs cl lv sb attrs "background" (by decide)).trans hbg
  have hri : raceInputOfAttrs (legacyClassArgs cl lv sb attrs).2.2.2 = RaceInput.pynone := by
    unfold raceInputOfAttrs
    rw [hra1]
  have hbi : backgroundInputOfAttrs (legacyClassArgs cl lv sb attrs).2.2.2
      = BackgroundInput.pynone := by
    unfold backgroundInputOfAttrs
    rw [hbg1]
  simp only [Character.init] at h
  cases hac : Character.add_classes {} (legacyClassArgs cl lv sb attrs).1
      (legacyClassArgs cl lv sb attrs).2.1 (legacyClassArgs cl lv sb attrs).2.2.1 with
  | error e =>
    rw [hac] at h
    simp only [Bind.bind, Except.bind] at h
    cases h
  | ok ch1 =>
    rw [hac] at h
    simp only [Bind.bind, Except.bind] at h
    rw [hri, hbi] at h
    obtain ⟨-, -, hbg0⟩ := add_classes_frame {} ch1 _ _ _ hac
    split at h
    · cases h
    · rename_i pw hsa
      split at h
      · cases h
      · rename_i ch2 hhp
        simp only [Pure.pure, Except.pure] at h
        injection h with h'
        have hch : ch2 = ch := congrArg Prod.fst h'
        subst hch
        obtain ⟨-, hr2, hb2, -⟩ := set_attrs_fold_frame cats _ _ pw hsa
        obtain ⟨-, hr3, hb3⟩ := set_max_hp_frame _ _ _ hhp
        have hnr : ¬ "race" ∈ (removeKeys (legacyClassArgs cl lv sb attrs).2.2.2
            ["race", "background"]).map Prod.fst :=
          not_mem_keys_removeKeys _ _ _ (by decide)
        have hnb : ¬ "background" ∈ (removeKeys (legacyClassArgs cl lv sb attrs).2.2.2
            ["race", "background"]).map Prod.fst :=
          not_mem_keys_removeKeys _ _ _ (by decide)
        constructor
        · rw [hr3, hr2 hnr]
          rfl
        · rw [hb3, hb2 hnb]
          show (background_setter cats.backgrounds ch1.background BackgroundInput.pynone).1
            = none
          rw [show (background_setter cats.backgrounds ch1.background
              BackgroundInput.pynone).1 = ch1.background from rfl]
          rw [hbg0]

/-- Witness for `race_generic_background_stays_none`: the plain
Fighter 1 construction gets the generic race and a null background. -/
theorem race_generic_background_stays_none_witness :
    c6Char.race = some genericRace ∧ c6Char.background = none :=
  race_generic_background_stays_none {} [ClassInput.cls .fighter] [1] [none] []
    c6Char c6Warnings rfl rfl rfl

/-- Claim C9: constructing a character and reading back a declared
scalar attribute that is not specially handled (not a dedicated
`set_attrs` branch, property setter, popped constructor key, `hp_max`,
or a descriptor-mediated stat) yields exactly the supplied value; an
*unknown* attribute name is still assigned, and additionally emits the
non-fatal "Setting unknown character attribute" warning. -/
theorem init_scalar_roundtrip :
    ∀ (cats : Catalogs) (cl : List ClassInput) (lv : List Nat)
      (sb : List (Option String)) (attrs : List (String × AttrVal))
      (ch : Character) (w : List String) (k : String) (v : AttrVal),
      Character.init cats cl lv sb attrs = .ok (ch, w) →
      (attrs.map Prod.fst).Nodup → (k, v) ∈ attrs →
      ¬ k ∈ roundtripExcludedKeys → v.isTypeLike = false →
      ch.getattr k = some v ∧
      (¬ k ∈ knownCharacterAttrs → startsWithUnderscore k = false →
        ("Setting unknown character attribute " ++ k) ∈ w) := by
  intro cats cl lv sb attrs ch w k v h hnd hmem hexc hv
  have hstep : ¬ k ∈ stepHandledKeys :=
    fun hm => hexc (by unfold roundtripExcludedKeys; exact List.mem_append_left _ hm)
  have hk3 : ¬ k ∈ ["class", "level", "subclass"] := by
    intro hm
    simp only [List.mem_cons, List.not_mem_nil, or_false] at hm
    rcases hm with rfl | rfl | rfl
    · exact hexc (by decide)
    · exact hexc (by decide)
    · exact hexc (by decide)
  have hrbg : ¬ k ∈ ["race", "background"] := by
    intro hm
    simp only [List.mem_cons, List.not_mem_nil, or_false] at hm
    rcases hm with rfl | rfl
    · exact hexc (by decide)
    · exact hexc (by decide)
  have hm1 : (k, v) ∈ (legacyClassArgs cl lv sb attrs).2.2.2 :=
    mem_legacyClassArgs cl lv sb attrs k v hmem hk3
  have hnd1 : (((legacyClassArgs cl lv sb attrs).2.2.2).map Prod.fst).Nodup :=
    nodup_legacyClassArgs cl lv sb attrs hnd
  have hm2 : (k, v) ∈ removeKeys (legacyClassArgs cl lv sb attrs).2.2.2
      ["race", "background"] :=
    mem_removeKeys _ _ k v hm1 hrbg
  have hnd2 : ((removeKeys (legacyClassArgs cl lv sb attrs).2.2.2
      ["race", "background"]).map Prod.fst).Nodup :=
    nodup_keys_removeKeys _ _ hnd1
  have hnone : ∀ (c : Character), c.attrs = [] → c.getattr k = none := by
    intro c hc
    unfold Character.getattr
    rw [hc]
    rfl
  simp only [Character.init] at h
  cases hac : Character.add_classes {} (legacyClassArgs cl lv sb attrs).1
      (legacyClassArgs cl lv sb attrs).2.1 (legacyClassArgs cl lv sb attrs).2.2.1 with
  | error e =>
    rw [hac] at h
    simp only [Bind.bind, Except.bind] at h
    cases h
  | ok ch1 =>
    rw [hac] at h
    simp only [Bind.bind, Except.bind] at h
    obtain ⟨hattrs1, -, -⟩ := add_classes_frame {} ch1 _ _ _ hac
    split at h
    · cases h
    · rename_i pw hsa
      split at h
      · cases h
      · rename_i ch2 hhp
        simp only [Pure.pure, Except.pure] at h
        injection h with h'
        have hch := congrArg Prod.fst h'
        have hw := congrArg Prod.snd h'
        simp only [] at hch hw
        obtain ⟨hg1, hg2⟩ := set_attrs_fold_generic cats _ _ pw hsa hnd2 k v hm2 hstep hv
        obtain ⟨hat3, -, -⟩ := set_max_hp_frame pw.1 ch2 _ hhp
        constructor
        · rw [← hch]
          unfold Character.getattr
          rw [hat3]
          exact hg1
        · intro hknown hus
          have hmsg := hg2 (hnone _ hattrs1) hknown hus
          rw [← hw]
          exact List.mem_append_right _ hmsg

/-- Witness for `init_scalar_roundtrip`: `alignment` (a known scalar)
and `favorite_color` (unknown) both read back their supplied values,
and the unknown one produced the warning. -/
theorem init_scalar_roundtrip_witness :
    c9Char.getattr "alignment" = some (.str "Chaotic Good") ∧
    c9Char.getattr "favorite_color" = some (.str "blue") ∧
    ("Setting unknown character attribute favorite_color") ∈ c9Warnings := by
  have hinit : Character.init {} [ClassInput.str "fighter"] [3] [none] c9Attrs
      = .ok (c9Char, c9Warnings) := rfl
  have h1 := init_scalar_roundtrip {} [ClassInput.str "fighter"] [3] [none] c9Attrs
    c9Char c9Warnings "alignment" (.str "Chaotic Good") hinit (by decide) (by decide)
    (by decide) rfl
  have h2 := init_scalar_roundtrip {} [ClassInput.str "fighter"] [3] [none] c9Attrs
    c9Char c9Warnings "favorite_color" (.str "blue") hinit (by decide) (by decide)
    (by decide) rfl
  exact ⟨h1.1, h2.1, h2.2 (by decide) (by decide)⟩

end DungeonSheets
